import Mathlib

/-!
# CTemplateTimer: a timer-callback registry

A shallow embedding of `TemplateTimer/TemplateTimer.h`.

* Pointers (`U*`, `void*`) and pointers to member functions are natural numbers
  that name the pointee; a null pointer to member is `none`.
* `UINT_PTR` and `UINT` values are natural numbers: the code does no arithmetic
  on them, only equality tests and ordering inside `std::map`.
* `std::map<UINT_PTR, CTimerExpireCallback<T>*>` is an association list that the
  operations keep in strictly ascending key order; a stored pointer is
  represented by the record it points to (no two keys ever share a record).
* What the code does to the outside world (`SetTimer`, `KillTimer`, `delete`,
  the call of the expiry handler) is recorded, in program order, in a trace.
* What the outside world gives back is an `Env`: the id `SetTimer` returns, and
  the value obtained by the read through the erased iterator in `ResetTimer`.
* The comparer an owner registered is owner code; its meaning is a parameter
  `call owner fn a b`.
-/

namespace CTemplateTimer

/-- Record `CTimerExpireCallback<U>`, fields as in the class. -/
structure CTimerExpireCallback where
  m_pClassPtr : Nat
  m_pObjectPtr : Nat
  m_uipTimerID : Nat
  pfnTimerExpired : Nat
  m_uiTimeoutValue : Nat
  pfnCompareObjects : Option Nat
deriving DecidableEq, Repr

/-- Meaning of a call `(owner->*fn)(a, b)` of a registered comparer. -/
abbrev CompareSem := Nat → Nat → Nat → Nat → Bool

/-- Member `PerformComparison`: a null comparer answers `false`, otherwise the
comparer is called on the record's owner. -/
def CTimerExpireCallback.PerformComparison (call : CompareSem)
    (cb : CTimerExpireCallback) (pObjectA pObjectB : Nat) : Bool :=
  match cb.pfnCompareObjects with
  | some fn => call cb.m_pClassPtr fn pObjectA pObjectB
  | none => false

/-- Observable actions of the registry, in program order. -/
inductive Effect where
  /-- Call `SetTimer(NULL, 0, elapse, TimerProc)` and the id it returned. -/
  | setTimer (elapse : Nat) (ret : Nat)
  /-- Call `KillTimer(NULL, id)`. -/
  | killTimer (id : Nat)
  /-- Statement `delete` on a callback record. -/
  | deleteCallback (cb : CTimerExpireCallback)
  /-- Statement `delete` on a `void*` user object. -/
  | deleteObject (p : Nat)
  /-- Call `(owner->*fn)(arg)` of an expiry handler on an owner, passing a record. -/
  | invoke (owner : Nat) (fn : Nat) (arg : CTimerExpireCallback)
deriving DecidableEq, Repr

/-- Member `operator()`: calls `pfnTimerExpired` on `m_pClassPtr`, passing `this`. -/
def CTimerExpireCallback.call (cb : CTimerExpireCallback) : Effect :=
  Effect.invoke cb.m_pClassPtr cb.pfnTimerExpired cb

/-- What the surroundings answer during one operation. -/
structure Env where
  /-- Id returned by `SetTimer` if the operation calls it. -/
  setTimerResult : Nat
  /-- Value of `it->second->m_uiTimeoutValue` read in `ResetTimer` after
  `erase(it)` has invalidated `it`; the program does not determine it. -/
  erasedRead : Nat
deriving DecidableEq, Repr

/-- The static member `m_mapTimerCallbacks`, entries in ascending key order. -/
abbrev TimerMap := List (Nat × CTimerExpireCallback)

/-- Keys of the map, in iteration order. -/
def keys (m : TimerMap) : List Nat := m.map Prod.fst

/-- Class invariant of `std::map`: keys strictly ascending. -/
def Ordered (m : TimerMap) : Prop := (keys m).Pairwise (· < ·)

instance (m : TimerMap) : Decidable (Ordered m) := by
  unfold Ordered; infer_instance

/-- Lookup `m.find(k)`: the record stored under `k`, if any. -/
def find (k : Nat) : TimerMap → Option CTimerExpireCallback
  | [] => none
  | (k', cb) :: rest => if k' = k then some cb else find k rest

/-- Removal `m.erase(k)`. -/
def erase (k : Nat) (m : TimerMap) : TimerMap :=
  m.filter (fun e => decide (e.1 ≠ k))

/-- Assignment `m[k] = cb`: replaces the record under `k` or inserts a new entry at
its place in key order. -/
def assign (k : Nat) (cb : CTimerExpireCallback) : TimerMap → TimerMap
  | [] => [(k, cb)]
  | (k', cb') :: rest =>
    if k' < k then (k', cb') :: assign k cb rest
    else if k' = k then (k, cb) :: rest
    else (k, cb) :: (k', cb') :: rest

/-- Scan shared by `AddTimer` and `RemoveTimer(void*)`: the first entry, in
iteration order, whose record's `PerformComparison` accepts its own
`m_pObjectPtr` against `pObjectPtr`. -/
def firstMatch (call : CompareSem) (pObjectPtr : Nat) : TimerMap → Option (Nat × CTimerExpireCallback)
  | [] => none
  | (k, cb) :: rest =>
    if cb.PerformComparison call cb.m_pObjectPtr pObjectPtr then some (k, cb)
    else firstMatch call pObjectPtr rest

/-- Method `ResetTimer`. -/
def ResetTimer (env : Env) (uipTimerId : Nat) (m : TimerMap) : TimerMap × List Effect :=
  if uipTimerId = 0 then (m, [])
  else
    match find uipTimerId m with
    | some pCallbackToReset =>
      let uipNewtimerId := env.setTimerResult
      (assign uipNewtimerId { pCallbackToReset with m_uipTimerID := uipNewtimerId }
          (erase uipTimerId m),
        [Effect.killTimer uipTimerId, Effect.setTimer env.erasedRead uipNewtimerId])
    | none => (m, [Effect.killTimer uipTimerId])

/-- Result of `AddTimer`: the returned id, the map and the trace. -/
structure AddResult where
  ret : Nat
  map : TimerMap
  trace : List Effect
deriving DecidableEq, Repr

/-- Method `AddTimer`. -/
def AddTimer (call : CompareSem) (env : Env) (pClassPtr pTimerProc : Nat)
    (pComparer : Option Nat) (pObjectPtr uiTimeoutValue : Nat) (m : TimerMap) : AddResult :=
  match firstMatch call pObjectPtr m with
  | some (k, _) =>
    let r := ResetTimer env k m
    { ret := 0, map := r.1, trace := r.2 }
  | none =>
    let uipNewTimerId := env.setTimerResult
    let pTimerObj : CTimerExpireCallback :=
      { m_pClassPtr := pClassPtr, m_pObjectPtr := pObjectPtr, m_uipTimerID := uipNewTimerId,
        pfnTimerExpired := pTimerProc, m_uiTimeoutValue := uiTimeoutValue,
        pfnCompareObjects := pComparer }
    { ret := uipNewTimerId, map := assign uipNewTimerId pTimerObj m,
      trace := [Effect.setTimer uiTimeoutValue uipNewTimerId] }

/-- Method `RemoveTimer(UINT_PTR)`. -/
def RemoveTimer (uipTimerId : Nat) (m : TimerMap) : TimerMap × List Effect :=
  if uipTimerId = 0 then (m, [])
  else
    match find uipTimerId m with
    | some pCallbackToDelete =>
      (erase uipTimerId m, [Effect.killTimer uipTimerId, Effect.deleteCallback pCallbackToDelete])
    | none => (m, [Effect.killTimer uipTimerId])

/-- Method `RemoveTimer(void*)`. -/
def RemoveTimerByObject (call : CompareSem) (pObjectPtr : Nat) (m : TimerMap) :
    TimerMap × List Effect :=
  let uipTimerIdToRemove : Nat :=
    match firstMatch call pObjectPtr m with
    | some (k, _) => k
    | none => 0
  if uipTimerIdToRemove ≠ 0 then RemoveTimer uipTimerIdToRemove m else (m, [])

/-- Static method `TimerProc`, the entry point the OS calls when a timer fires. -/
def TimerProc (uipTimerId : Nat) (m : TimerMap) : TimerMap × List Effect :=
  if uipTimerId = 0 then (m, [])
  else
    match find uipTimerId m with
    | some cb => (m, [cb.call])
    | none => (m, [])

/-- Destructor `~CTemplateTimer`: deletes every record's user object, then clears the map. -/
def Destroy (m : TimerMap) : TimerMap × List Effect :=
  ([], m.map (fun e => Effect.deleteObject e.2.m_pObjectPtr))

/-- The calls a client, or the OS, makes on the registry. -/
inductive Command where
  | add (pClassPtr pTimerProc : Nat) (pComparer : Option Nat) (pObjectPtr uiTimeoutValue : Nat)
  | reset (uipTimerId : Nat)
  | removeByObject (pObjectPtr : Nat)
  | removeById (uipTimerId : Nat)
  | dispatch (uipTimerId : Nat)
deriving DecidableEq, Repr

/-- State of a run: the map, everything done so far, and the ids `AddTimer` returned. -/
structure Run where
  map : TimerMap
  trace : List Effect
  rets : List Nat
deriving DecidableEq, Repr

/-- One call on the registry, with the surroundings' answers for that call. -/
def step (call : CompareSem) (s : Run) (c : Command × Env) : Run :=
  match c.1 with
  | Command.add o t cmp p ms =>
    let r := AddTimer call c.2 o t cmp p ms s.map
    { map := r.map, trace := s.trace ++ r.trace, rets := s.rets ++ [r.ret] }
  | Command.reset id =>
    let r := ResetTimer c.2 id s.map
    { map := r.1, trace := s.trace ++ r.2, rets := s.rets }
  | Command.removeByObject p =>
    let r := RemoveTimerByObject call p s.map
    { map := r.1, trace := s.trace ++ r.2, rets := s.rets }
  | Command.removeById id =>
    let r := RemoveTimer id s.map
    { map := r.1, trace := s.trace ++ r.2, rets := s.rets }
  | Command.dispatch id =>
    let r := TimerProc id s.map
    { map := r.1, trace := s.trace ++ r.2, rets := s.rets }

/-- The registry before any call. -/
def Run.init : Run := { map := [], trace := [], rets := [] }

/-- A sequence of calls from a given state. -/
def run (call : CompareSem) (s : Run) (script : List (Command × Env)) : Run :=
  script.foldl (step call) s

/-- Ids scheduled with the OS and not cancelled, after a trace, from `pending`. -/
def pendingAfter (pending : List Nat) : List Effect → List Nat
  | [] => pending
  | Effect.setTimer _ ret :: t => pendingAfter (ret :: pending) t
  | Effect.killTimer id :: t => pendingAfter (pending.filter (fun x => decide (x ≠ id))) t
  | _ :: t => pendingAfter pending t

/-- The OS contract along a trace: every `SetTimer` returned a non-zero id that was
not scheduled at that moment. -/
def OsOk (pending : List Nat) : List Effect → Prop
  | [] => True
  | Effect.setTimer _ ret :: t => ret ≠ 0 ∧ ret ∉ pending ∧ OsOk (ret :: pending) t
  | Effect.killTimer id :: t => OsOk (pending.filter (fun x => decide (x ≠ id))) t
  | _ :: t => OsOk pending t

/-- The OS contract along a trace can be checked by evaluation. -/
def OsOk.dec : (pending : List Nat) → (t : List Effect) → Decidable (OsOk pending t)
  | _, [] => isTrue trivial
  | p, Effect.setTimer _ ret :: t =>
    have := OsOk.dec (ret :: p) t
    show Decidable (ret ≠ 0 ∧ ret ∉ p ∧ OsOk (ret :: p) t) from inferInstance
  | p, Effect.killTimer id :: t =>
    show Decidable (OsOk (p.filter (fun x => decide (x ≠ id))) t) from OsOk.dec _ t
  | p, Effect.deleteCallback _ :: t => show Decidable (OsOk p t) from OsOk.dec p t
  | p, Effect.deleteObject _ :: t => show Decidable (OsOk p t) from OsOk.dec p t
  | p, Effect.invoke _ _ _ :: t => show Decidable (OsOk p t) from OsOk.dec p t

instance (pending : List Nat) (t : List Effect) : Decidable (OsOk pending t) :=
  OsOk.dec pending t

/-- The `SetTimer` and `KillTimer` calls of a trace. -/
def osCalls (t : List Effect) : List Effect :=
  t.filter (fun e => match e with
    | Effect.setTimer _ _ => true
    | Effect.killTimer _ => true
    | _ => false)

/-- The handler invocations of a trace. -/
def invocations (t : List Effect) : List Effect :=
  t.filter (fun e => match e with
    | Effect.invoke _ _ _ => true
    | _ => false)

/-- A record's comparer accepts the record's own user object against `p`. -/
def Accepts (call : CompareSem) (p : Nat) (cb : CTimerExpireCallback) : Prop :=
  cb.PerformComparison call cb.m_pObjectPtr p = true

/-- Every record's `m_uipTimerID` is the key it is stored under. -/
def KeyedById (m : TimerMap) : Prop := ∀ e ∈ m, e.2.m_uipTimerID = e.1

instance (call : CompareSem) (p : Nat) (cb : CTimerExpireCallback) :
    Decidable (Accepts call p cb) := by
  unfold Accepts; infer_instance

/-- A record with its `m_uipTimerID` blanked: what a record is apart from its id. -/
def forgetId (cb : CTimerExpireCallback) : CTimerExpireCallback :=
  { cb with m_uipTimerID := 0 }

/-- The records of a map, ids blanked, in iteration order. -/
def records (m : TimerMap) : List CTimerExpireCallback :=
  m.map (fun e => forgetId e.2)

/-- Comparer semantics used in the worked scenarios: comparer `1` answers `true`
on every pair, every other comparer answers `false`. -/
def demoCall : CompareSem := fun _ fn _ _ => decide (fn = 1)

/-- Invariant of a run that only adds timers whose comparers never accept, under the
OS contract: no record accepts anything, every key and every returned id is
scheduled, and the returned ids are non-zero and pairwise distinct. -/
structure AddsInv (call : CompareSem) (s : Run) (n : Nat) : Prop where
  never : ∀ e ∈ s.map, ∀ p, ¬ Accepts call p e.2
  keysSched : ∀ k ∈ keys s.map, k ∈ pendingAfter [] s.trace
  retsSched : ∀ r ∈ s.rets, r ∈ pendingAfter [] s.trace
  retsNonzero : ∀ r ∈ s.rets, r ≠ 0
  retsNodup : s.rets.Nodup
  mapLen : s.map.length = n
  retsLen : s.rets.length = n

/-- Three `AddTimer` calls with the always-false comparer `0`; the OS answers 5, 6, 7. -/
def demoAdds : List (Command × Env) :=
  [(Command.add 1 2 (some 0) 10 1000, ⟨5, 0⟩),
   (Command.add 1 2 (some 0) 20 500, ⟨6, 0⟩),
   (Command.add 3 4 (some 0) 10 250, ⟨7, 0⟩)]

/-- A mixed run: an add (OS answers 5), a reset of 5 (OS answers 6), a coalescing add
(OS answers 7), a dispatch, a removal of an absent id, and an add with an
always-false comparer that still coalesces with the first record (OS answers 9). -/
def demoMixed : List (Command × Env) :=
  [(Command.add 1 2 (some 1) 10 1000, ⟨5, 0⟩),
   (Command.reset 5, ⟨6, 1000⟩),
   (Command.add 1 2 (some 1) 20 2000, ⟨7, 1000⟩),
   (Command.dispatch 7, ⟨0, 0⟩),
   (Command.removeById 99, ⟨0, 0⟩),
   (Command.add 3 4 (some 0) 30 250, ⟨9, 1000⟩)]

/-- Two records that both accept every user object, under ids 3 and 7, after one that
accepts none under id 2. -/
def demoTwoMatches : TimerMap :=
  [(2, ⟨1, 9, 2, 2, 100, some 0⟩), (3, ⟨1, 10, 3, 2, 1000, some 1⟩),
   (7, ⟨1, 20, 7, 2, 500, some 1⟩)]

/-- A record as `AddTimer` builds it. -/
def mkCallback (pClassPtr pTimerProc : Nat) (pComparer : Option Nat)
    (pObjectPtr uiTimeoutValue uipTimerId : Nat) : CTimerExpireCallback :=
  { m_pClassPtr := pClassPtr, m_pObjectPtr := pObjectPtr, m_uipTimerID := uipTimerId,
    pfnTimerExpired := pTimerProc, m_uiTimeoutValue := uiTimeoutValue,
    pfnCompareObjects := pComparer }

/-- Number of `SetTimer` calls in a trace. -/
def setTimerCount : List Effect → Nat
  | [] => 0
  | Effect.setTimer _ _ :: t => setTimerCount t + 1
  | _ :: t => setTimerCount t

/-- The pointers handed to `delete` as user objects, in program order. -/
def deletedObjects : List Effect → List Nat
  | [] => []
  | Effect.deleteObject p :: t => p :: deletedObjects t
  | _ :: t => deletedObjects t

/-- The user objects carried by the records of a map, in iteration order. -/
def userObjects (m : TimerMap) : List Nat := m.map (fun e => e.2.m_pObjectPtr)

/-- One record under id 5 whose comparer accepts every user object. -/
def demoOneMatch : TimerMap := [(5, mkCallback 1 2 (some 1) 10 1000 5)]

/-- Two records, under ids 5 and 6, that carry the same user object 10. -/
def demoShared : TimerMap :=
  [(5, mkCallback 1 2 none 10 1000 5), (6, mkCallback 1 2 none 10 500 6)]

/-- A record under key 0 whose comparer accepts every user object, and one under id 7
whose comparer accepts none. -/
def demoKeyZero : TimerMap :=
  [(0, mkCallback 1 2 (some 1) 10 1000 0), (7, mkCallback 1 2 (some 0) 20 500 7)]

/-! ## Facts about the map operations -/

theorem find_assign (k k' : Nat) (cb : CTimerExpireCallback) (m : TimerMap) :
    find k' (assign k cb m) = if k' = k then some cb else find k' m := by
  induction m with
  | nil =>
    by_cases h : k' = k
    · simp [assign, find, h]
    · have h' : ¬ k = k' := fun e => h e.symm
      simp [assign, find, h, h']
  | cons e rest ih =>
    obtain ⟨a, c⟩ := e
    unfold assign
    by_cases h1 : a < k
    · simp only [h1, if_true, find, ih]
      by_cases h2 : a = k'
      · have : ¬ k' = k := by omega
        simp [h2, this]
      · simp [h2]
    · by_cases h2 : a = k
      · subst h2
        simp only [h1, if_false, if_true, find]
        by_cases h3 : a = k'
        · simp [h3]
        · have : ¬ k' = a := fun e => h3 e.symm
          simp [h3, this]
      · simp only [h1, h2, if_false, find]
        by_cases h3 : k = k'
        · simp [h3]
        · have : ¬ k' = k := fun e => h3 e.symm
          simp [h3, this]

theorem find_erase (k k' : Nat) (m : TimerMap) :
    find k' (erase k m) = if k' = k then none else find k' m := by
  induction m with
  | nil => simp [erase, find]
  | cons e rest ih =>
    obtain ⟨a, c⟩ := e
    unfold erase at ih ⊢
    by_cases h1 : a = k
    · subst h1
      simp only [List.filter, ne_eq, not_true_eq_false, decide_False, ih, find]
      by_cases h2 : k' = a
      · simp [h2]
      · have : ¬ a = k' := fun e => h2 e.symm
        simp [h2, this]
    · simp only [List.filter, ne_eq, h1, not_false_eq_true, decide_True, find, ih]
      by_cases h2 : a = k'
      · have : ¬ k' = k := by omega
        simp [h2, this]
      · simp [h2]

theorem find_eq_none_iff (k : Nat) (m : TimerMap) : find k m = none ↔ k ∉ keys m := by
  induction m with
  | nil => simp [find, keys]
  | cons e rest ih =>
    obtain ⟨a, c⟩ := e
    by_cases h : a = k
    · simp [find, keys, h]
    · have h' : ¬ k = a := fun e => h e.symm
      simp only [find, h, if_false, ih, keys, List.map_cons, List.mem_cons, h', false_or]

theorem mem_of_find (k : Nat) (cb : CTimerExpireCallback) (m : TimerMap)
    (h : find k m = some cb) : (k, cb) ∈ m := by
  induction m with
  | nil => simp [find] at h
  | cons e rest ih =>
    obtain ⟨a, c⟩ := e
    by_cases h1 : a = k
    · simp [find, h1] at h
      simp [h1, h]
    · simp only [find, h1, if_false] at h
      exact List.mem_cons_of_mem _ (ih h)

theorem erase_of_not_mem (k : Nat) (m : TimerMap) (h : k ∉ keys m) : erase k m = m := by
  unfold erase
  rw [List.filter_eq_self]
  intro e he
  have : e.1 ∈ keys m := List.mem_map_of_mem Prod.fst he
  have hne : e.1 ≠ k := fun h' => h (h' ▸ this)
  simp [hne]

theorem mem_erase (k : Nat) (e : Nat × CTimerExpireCallback) (m : TimerMap) :
    e ∈ erase k m ↔ e ∈ m ∧ e.1 ≠ k := by
  simp [erase]

theorem keys_erase (k : Nat) (m : TimerMap) :
    keys (erase k m) = (keys m).filter (fun x => decide (x ≠ k)) := by
  unfold erase keys
  rw [List.filter_map]
  rfl

theorem ordered_erase (k : Nat) (m : TimerMap) (h : Ordered m) : Ordered (erase k m) := by
  unfold Ordered at h ⊢
  rw [keys_erase]
  exact List.Pairwise.filter _ h

theorem keys_assign_mem (k x : Nat) (cb : CTimerExpireCallback) (m : TimerMap) :
    x ∈ keys (assign k cb m) ↔ x = k ∨ x ∈ keys m := by
  induction m with
  | nil => simp [assign, keys]
  | cons e rest ih =>
    obtain ⟨a, c⟩ := e
    unfold assign
    by_cases h1 : a < k
    · simp only [h1, if_true]
      simp only [keys, List.map_cons, List.mem_cons] at ih ⊢
      rw [ih]
      tauto
    · by_cases h2 : a = k
      · simp [h1, h2, keys]
      · simp [h1, h2, keys]

theorem ordered_assign (k : Nat) (cb : CTimerExpireCallback) (m : TimerMap) (h : Ordered m) :
    Ordered (assign k cb m) := by
  induction m with
  | nil => simp [assign, Ordered, keys]
  | cons e rest ih =>
    obtain ⟨a, c⟩ := e
    have hrest : Ordered rest := by
      unfold Ordered keys at h ⊢
      exact (List.pairwise_cons.mp h).2
    have hhead : ∀ x ∈ keys rest, a < x := by
      unfold Ordered keys at h
      exact (List.pairwise_cons.mp h).1
    unfold assign
    by_cases h1 : a < k
    · simp only [h1, if_true]
      unfold Ordered
      show List.Pairwise (· < ·) (a :: keys (assign k cb rest))
      refine List.pairwise_cons.mpr ⟨?_, ih hrest⟩
      intro x hx
      rcases (keys_assign_mem k x cb rest).mp hx with hx | hx
      · omega
      · exact hhead x hx
    · by_cases h2 : a = k
      · subst h2
        simp only [h1, if_false, if_true]
        exact h
      · simp only [h1, h2, if_false]
        unfold Ordered
        show List.Pairwise (· < ·) (k :: keys ((a, c) :: rest))
        refine List.pairwise_cons.mpr ⟨?_, h⟩
        intro x hx
        simp only [keys, List.map_cons, List.mem_cons] at hx
        rcases hx with hx | hx
        · omega
        · have := hhead x hx
          omega

theorem assign_perm (k : Nat) (cb : CTimerExpireCallback) (m : TimerMap) (h : k ∉ keys m) :
    List.Perm (assign k cb m) ((k, cb) :: m) := by
  induction m with
  | nil => simp [assign]
  | cons e rest ih =>
    obtain ⟨a, c⟩ := e
    simp only [keys, List.map_cons, List.mem_cons, not_or] at h
    unfold assign
    by_cases h1 : a < k
    · simp only [h1, if_true]
      exact ((ih h.2).cons (a, c)).trans (List.Perm.swap _ _ _)
    · have h2 : ¬ a = k := fun e => h.1 e.symm
      simp [h1, h2]

theorem erase_perm (k : Nat) (cb : CTimerExpireCallback) (m : TimerMap) (ho : Ordered m)
    (h : find k m = some cb) : List.Perm m ((k, cb) :: erase k m) := by
  induction m with
  | nil => simp [find] at h
  | cons e rest ih =>
    obtain ⟨a, c⟩ := e
    have hrest : Ordered rest := by
      unfold Ordered keys at ho ⊢
      exact (List.pairwise_cons.mp ho).2
    have hhead : ∀ x ∈ keys rest, a < x := by
      unfold Ordered keys at ho
      exact (List.pairwise_cons.mp ho).1
    by_cases h1 : a = k
    · subst h1
      simp only [find, if_true, Option.some.injEq] at h
      subst h
      have hnot : a ∉ keys rest := fun hx => by have := hhead a hx; omega
      have : erase a ((a, c) :: rest) = erase a rest := by
        unfold erase
        rw [List.filter_cons_of_neg]
        simp
      rw [this, erase_of_not_mem a rest hnot]
    · simp only [find, h1, if_false] at h
      have : erase k ((a, c) :: rest) = (a, c) :: erase k rest := by
        unfold erase
        simp [List.filter, h1]
      rw [this]
      exact ((ih hrest h).cons (a, c)).trans (List.Perm.swap _ _ _)

theorem firstMatch_none_iff (call : CompareSem) (p : Nat) (m : TimerMap) :
    firstMatch call p m = none ↔ ∀ e ∈ m, ¬ Accepts call p e.2 := by
  induction m with
  | nil => simp [firstMatch]
  | cons e rest ih =>
    obtain ⟨a, c⟩ := e
    unfold firstMatch
    by_cases h : c.PerformComparison call c.m_pObjectPtr p = true
    · simp [h, Accepts]
    · rw [if_neg h, ih]
      constructor
      · intro H e he
        rcases List.mem_cons.mp he with he | he
        · subst he; exact h
        · exact H e he
      · intro H e he
        exact H e (List.mem_cons_of_mem _ he)

theorem firstMatch_some (call : CompareSem) (p : Nat) (m : TimerMap) (k : Nat)
    (cb : CTimerExpireCallback) (h : firstMatch call p m = some (k, cb)) :
    ∃ pre post, m = pre ++ (k, cb) :: post ∧ Accepts call p cb ∧
      ∀ e ∈ pre, ¬ Accepts call p e.2 := by
  induction m with
  | nil => simp [firstMatch] at h
  | cons e rest ih =>
    obtain ⟨a, c⟩ := e
    unfold firstMatch at h
    by_cases hc : c.PerformComparison call c.m_pObjectPtr p = true
    · simp only [hc, if_true, Option.some.injEq, Prod.mk.injEq] at h
      obtain ⟨rfl, rfl⟩ := h
      exact ⟨[], rest, rfl, hc, by simp⟩
    · simp only [hc, if_false] at h
      obtain ⟨pre, post, hm, hacc, hpre⟩ := ih h
      refine ⟨(a, c) :: pre, post, by simp [hm], hacc, ?_⟩
      intro e he
      rcases List.mem_cons.mp he with he | he
      · subst he; exact hc
      · exact hpre e he

theorem find_of_mem_ordered (k : Nat) (cb : CTimerExpireCallback) (m : TimerMap)
    (ho : Ordered m) (h : (k, cb) ∈ m) : find k m = some cb := by
  induction m with
  | nil => simp at h
  | cons e rest ih =>
    obtain ⟨a, c⟩ := e
    have hrest : Ordered rest := by
      unfold Ordered keys at ho ⊢
      exact (List.pairwise_cons.mp ho).2
    have hhead : ∀ x ∈ keys rest, a < x := by
      unfold Ordered keys at ho
      exact (List.pairwise_cons.mp ho).1
    rcases List.mem_cons.mp h with h | h
    · simp only [Prod.mk.injEq] at h
      simp [find, h.1, h.2]
    · have hk : k ∈ keys rest := List.mem_map_of_mem Prod.fst h
      have := hhead k hk
      have hne : ¬ a = k := by omega
      simp only [find, hne, if_false]
      exact ih hrest h


/-! ## Single operations -/

/-- C1: when no live record's comparer accepts the supplied user object, `AddTimer`
issues exactly one `SetTimer` with the supplied timeout, returns the id the OS
returned, stores under that id a record holding the supplied owner, handler,
comparer, user object and timeout with `m_uipTimerID` equal to that id, and
leaves every other key as it was; if the id was not a key before, the new map
is the old one plus that single entry. -/
theorem C1_AddTimer_creates (call : CompareSem) (env : Env) (pClassPtr pTimerProc : Nat)
    (pComparer : Option Nat) (pObjectPtr uiTimeoutValue : Nat) (m : TimerMap)
    (hno : ∀ e ∈ m, ¬ Accepts call pObjectPtr e.2) :
    (AddTimer call env pClassPtr pTimerProc pComparer pObjectPtr uiTimeoutValue m).trace
        = [Effect.setTimer uiTimeoutValue env.setTimerResult] ∧
    (AddTimer call env pClassPtr pTimerProc pComparer pObjectPtr uiTimeoutValue m).ret
        = env.setTimerResult ∧
    find env.setTimerResult
        (AddTimer call env pClassPtr pTimerProc pComparer pObjectPtr uiTimeoutValue m).map
        = some (mkCallback pClassPtr pTimerProc pComparer pObjectPtr uiTimeoutValue
            env.setTimerResult) ∧
    (∀ k, k ≠ env.setTimerResult →
      find k (AddTimer call env pClassPtr pTimerProc pComparer pObjectPtr uiTimeoutValue m).map
        = find k m) ∧
    (env.setTimerResult ∉ keys m →
      List.Perm (AddTimer call env pClassPtr pTimerProc pComparer pObjectPtr uiTimeoutValue m).map
        ((env.setTimerResult, mkCallback pClassPtr pTimerProc pComparer pObjectPtr uiTimeoutValue
            env.setTimerResult) :: m)) := by
  have hfm : firstMatch call pObjectPtr m = none := (firstMatch_none_iff call pObjectPtr m).mpr hno
  unfold AddTimer
  rw [hfm]
  refine ⟨rfl, rfl, ?_, ?_, ?_⟩
  · simp [find_assign, mkCallback]
  · intro k hk
    simp [find_assign, hk]
  · intro hk
    exact assign_perm _ _ _ hk

/-- Witness for C1: a registry holding one record under id 3 whose comparer always
answers `false`; adding user object 20 with timeout 500 while the OS answers 7. -/
theorem C1_AddTimer_creates_witness :
    (∀ e ∈ [(3, mkCallback 1 2 (some 0) 10 1000 3)], ¬ Accepts demoCall 20 e.2) ∧
    (AddTimer demoCall ⟨7, 0⟩ 1 2 (some 0) 20 500 [(3, mkCallback 1 2 (some 0) 10 1000 3)]).ret = 7 ∧
    (AddTimer demoCall ⟨7, 0⟩ 1 2 (some 0) 20 500 [(3, mkCallback 1 2 (some 0) 10 1000 3)]).map
      = [(3, mkCallback 1 2 (some 0) 10 1000 3), (7, mkCallback 1 2 (some 0) 20 500 7)] :=
  ⟨by decide,
   (C1_AddTimer_creates demoCall ⟨7, 0⟩ 1 2 (some 0) 20 500
      [(3, mkCallback 1 2 (some 0) 10 1000 3)] (by decide)).2.1,
   by decide⟩

/-- C2: when some live record's comparer accepts the supplied user object, the map is
ordered, every key is scheduled with the OS, and the OS answers `SetTimer` with a
non-zero id that is not scheduled at that moment, `AddTimer` returns 0, the number
of records is unchanged, and the records apart from their ids are the same as
before: the matched record keeps its owner, user object, handlers and timeout, and
nothing of the new request is stored. -/
theorem C2_AddTimer_coalesces (call : CompareSem) (env : Env) (pClassPtr pTimerProc : Nat)
    (pComparer : Option Nat) (pObjectPtr uiTimeoutValue : Nat) (m : TimerMap)
    (pending : List Nat) (ho : Ordered m)
    (hacc : ∃ e ∈ m, Accepts call pObjectPtr e.2)
    (hsched : ∀ k ∈ keys m, k ∈ pending)
    (hos : OsOk pending
      (AddTimer call env pClassPtr pTimerProc pComparer pObjectPtr uiTimeoutValue m).trace) :
    (AddTimer call env pClassPtr pTimerProc pComparer pObjectPtr uiTimeoutValue m).ret = 0 ∧
    (AddTimer call env pClassPtr pTimerProc pComparer pObjectPtr uiTimeoutValue m).map.length
      = m.length ∧
    List.Perm
      (records (AddTimer call env pClassPtr pTimerProc pComparer pObjectPtr uiTimeoutValue m).map)
      (records m) := by
  cases hfm : firstMatch call pObjectPtr m with
  | none =>
    obtain ⟨e, he, hacc⟩ := hacc
    exact absurd hacc ((firstMatch_none_iff call pObjectPtr m).mp hfm e he)
  | some kc =>
    obtain ⟨k, cb⟩ := kc
    obtain ⟨pre, post, hm, -, -⟩ := firstMatch_some call pObjectPtr m k cb hfm
    have hmem : (k, cb) ∈ m := by rw [hm]; simp
    have hfind : find k m = some cb := find_of_mem_ordered k cb m ho hmem
    unfold AddTimer at hos ⊢
    rw [hfm] at hos ⊢
    by_cases hk : k = 0
    · subst hk
      simp [ResetTimer]
    · simp only [ResetTimer, hk, if_false, hfind] at hos ⊢
      simp only [OsOk] at hos
      obtain ⟨-, hfresh, -⟩ := hos
      have hnew : env.setTimerResult ∉ keys (erase k m) := by
        intro hin
        rw [keys_erase] at hin
        have h1 := List.mem_filter.mp hin
        exact hfresh (List.mem_filter.mpr ⟨hsched _ h1.1, h1.2⟩)
      have hp1 := assign_perm env.setTimerResult
        { cb with m_uipTimerID := env.setTimerResult } (erase k m) hnew
      have hp2 := erase_perm k cb m ho hfind
      refine ⟨trivial, ?_, ?_⟩
      · rw [hp1.length_eq, hp2.length_eq]; rfl
      · have h3 : List.Perm (records (assign env.setTimerResult
            { cb with m_uipTimerID := env.setTimerResult } (erase k m)))
            (records ((env.setTimerResult, { cb with m_uipTimerID := env.setTimerResult })
              :: erase k m)) := hp1.map _
        have h4 : List.Perm (records m) (records ((k, cb) :: erase k m)) := hp2.map _
        exact h3.trans h4.symm

/-- Witness for C2, the scenario of the specification: `Add(data1, 1000)` with an
always-true comparer, then `Add(data2, 2000)` with the same comparer, leaves
exactly one record, carrying `data1` and timeout 1000, now under the new id. -/
theorem C2_AddTimer_coalesces_witness :
    Ordered (AddTimer demoCall ⟨5, 0⟩ 1 2 (some 1) 10 1000 []).map ∧
    (∃ e ∈ (AddTimer demoCall ⟨5, 0⟩ 1 2 (some 1) 10 1000 []).map, Accepts demoCall 20 e.2) ∧
    (AddTimer demoCall ⟨6, 1000⟩ 1 2 (some 1) 20 2000
      (AddTimer demoCall ⟨5, 0⟩ 1 2 (some 1) 10 1000 []).map).ret = 0 ∧
    (AddTimer demoCall ⟨6, 1000⟩ 1 2 (some 1) 20 2000
      (AddTimer demoCall ⟨5, 0⟩ 1 2 (some 1) 10 1000 []).map).map
      = [(6, mkCallback 1 2 (some 1) 10 1000 6)] :=
  ⟨by decide, by decide,
   (C2_AddTimer_coalesces demoCall ⟨6, 1000⟩ 1 2 (some 1) 20 2000
      (AddTimer demoCall ⟨5, 0⟩ 1 2 (some 1) 10 1000 []).map [5]
      (by decide) (by decide) (by decide) (by decide)).1,
   by decide⟩


/-- C3: `TimerProc` never changes the map; for a non-zero id present in the map it
makes exactly one handler call, the `pfnTimerExpired` stored in the record under
that id, on that record's owner, passing that record; for id 0 or an absent id it
makes no call at all. -/
theorem C3_TimerProc_dispatch (uipTimerId : Nat) (m : TimerMap) :
    (TimerProc uipTimerId m).1 = m ∧
    (∀ cb, uipTimerId ≠ 0 → find uipTimerId m = some cb →
      (TimerProc uipTimerId m).2 = [Effect.invoke cb.m_pClassPtr cb.pfnTimerExpired cb]) ∧
    (uipTimerId = 0 ∨ find uipTimerId m = none → (TimerProc uipTimerId m).2 = []) := by
  refine ⟨?_, ?_, ?_⟩
  · unfold TimerProc
    by_cases h0 : uipTimerId = 0
    · simp [h0]
    · cases hf : find uipTimerId m <;> simp [h0]
  · intro cb h0 hf
    simp [TimerProc, h0, hf, CTimerExpireCallback.call]
  · intro h
    rcases h with h | h
    · simp [TimerProc, h]
    · unfold TimerProc
      by_cases h0 : uipTimerId = 0
      · simp [h0]
      · simp [h0, h]

/-- Witness for C3: dispatching the live id 5 calls handler 2 on owner 1 with the
record carrying user object 10 and timeout 1000; dispatching the absent id 9, or
id 0, calls nothing. -/
theorem C3_TimerProc_dispatch_witness :
    (5 ≠ 0 ∧ find 5 [(5, mkCallback 1 2 (some 0) 10 1000 5)]
      = some (mkCallback 1 2 (some 0) 10 1000 5)) ∧
    (TimerProc 5 [(5, mkCallback 1 2 (some 0) 10 1000 5)]).2
      = [Effect.invoke 1 2 (mkCallback 1 2 (some 0) 10 1000 5)] ∧
    (TimerProc 9 [(5, mkCallback 1 2 (some 0) 10 1000 5)]).2 = [] ∧
    (TimerProc 0 [(5, mkCallback 1 2 (some 0) 10 1000 5)]).2 = [] :=
  ⟨by decide,
   (C3_TimerProc_dispatch 5 [(5, mkCallback 1 2 (some 0) 10 1000 5)]).2.1
      (mkCallback 1 2 (some 0) 10 1000 5) (by decide) (by decide),
   (C3_TimerProc_dispatch 9 [(5, mkCallback 1 2 (some 0) 10 1000 5)]).2.2
      (Or.inr (by decide)),
   (C3_TimerProc_dispatch 0 [(5, mkCallback 1 2 (some 0) 10 1000 5)]).2.2
      (Or.inl rfl)⟩

/-- C4: for a non-zero id, `RemoveTimer(UINT_PTR)` issues exactly one OS call,
`KillTimer` for that id, and leaves the map with that key erased: the key is
absent afterwards, every other key holds what it held, no entry is added or
moved, and the map is untouched when the id was absent. `RemoveTimer(0)` changes
nothing and does nothing. -/
theorem C4_RemoveTimer_by_id (uipTimerId : Nat) (m : TimerMap) :
    (uipTimerId ≠ 0 →
      osCalls (RemoveTimer uipTimerId m).2 = [Effect.killTimer uipTimerId] ∧
      (∀ k, find k (RemoveTimer uipTimerId m).1 = if k = uipTimerId then none else find k m) ∧
      (∀ e, e ∈ (RemoveTimer uipTimerId m).1 ↔ e ∈ m ∧ e.1 ≠ uipTimerId) ∧
      List.Sublist (RemoveTimer uipTimerId m).1 m ∧
      (find uipTimerId m = none → (RemoveTimer uipTimerId m).1 = m)) ∧
    (uipTimerId = 0 → RemoveTimer uipTimerId m = (m, [])) := by
  constructor
  · intro h0
    have hmap : (RemoveTimer uipTimerId m).1 = erase uipTimerId m := by
      unfold RemoveTimer
      cases hf : find uipTimerId m with
      | none =>
        simp only [h0, if_false]
        exact (erase_of_not_mem _ _ ((find_eq_none_iff _ _).mp hf)).symm
      | some cb => simp [h0]
    refine ⟨?_, ?_, ?_, ?_, ?_⟩
    · unfold RemoveTimer
      cases hf : find uipTimerId m <;> simp [h0, osCalls]
    · intro k
      rw [hmap, find_erase]
    · intro e
      rw [hmap, mem_erase]
    · rw [hmap]
      exact List.filter_sublist _
    · intro hf
      rw [hmap]
      exact erase_of_not_mem _ _ ((find_eq_none_iff _ _).mp hf)
  · intro h0
    simp [RemoveTimer, h0]

/-- Witness for C4: removing id 3 from a registry holding ids 3 and 7 kills timer 3
and leaves only the entry under 7. -/
theorem C4_RemoveTimer_by_id_witness :
    (3 ≠ 0) ∧
    osCalls (RemoveTimer 3 [(3, mkCallback 1 2 (some 0) 10 1000 3),
      (7, mkCallback 1 2 (some 0) 20 500 7)]).2 = [Effect.killTimer 3] ∧
    (RemoveTimer 3 [(3, mkCallback 1 2 (some 0) 10 1000 3),
      (7, mkCallback 1 2 (some 0) 20 500 7)]).1 = [(7, mkCallback 1 2 (some 0) 20 500 7)] ∧
    RemoveTimer 0 [(3, mkCallback 1 2 (some 0) 10 1000 3)]
      = ([(3, mkCallback 1 2 (some 0) 10 1000 3)], []) :=
  ⟨by decide,
   ((C4_RemoveTimer_by_id 3 [(3, mkCallback 1 2 (some 0) 10 1000 3),
      (7, mkCallback 1 2 (some 0) 20 500 7)]).1 (by decide)).1,
   by decide,
   (C4_RemoveTimer_by_id 0 [(3, mkCallback 1 2 (some 0) 10 1000 3)]).2 rfl⟩

/-- C5: after `RemoveTimer(id)`, `TimerProc(id)` calls no handler and leaves the map
as the removal left it; `TimerProc` on any other id does exactly what it did
before the removal, so for every other non-zero key still in the map it calls
that record's handler on that record's owner with that record. -/
theorem C5_remove_then_dispatch (uipTimerId : Nat) (m : TimerMap) :
    TimerProc uipTimerId (RemoveTimer uipTimerId m).1 = ((RemoveTimer uipTimerId m).1, []) ∧
    (∀ k, k ≠ uipTimerId →
      TimerProc k (RemoveTimer uipTimerId m).1
        = ((RemoveTimer uipTimerId m).1, (TimerProc k m).2)) ∧
    (∀ k cb, k ≠ uipTimerId → k ≠ 0 → find k (RemoveTimer uipTimerId m).1 = some cb →
      TimerProc k (RemoveTimer uipTimerId m).1
        = ((RemoveTimer uipTimerId m).1,
            [Effect.invoke cb.m_pClassPtr cb.pfnTimerExpired cb])) := by
  have hfind : ∀ k, uipTimerId ≠ 0 →
      find k (RemoveTimer uipTimerId m).1 = if k = uipTimerId then none else find k m := by
    intro k h0
    unfold RemoveTimer
    cases hf : find uipTimerId m with
    | none =>
      simp only [h0, if_false]
      by_cases hk : k = uipTimerId
      · simp [hk, hf]
      · simp [hk]
    | some cb =>
      simp only [h0, if_false]
      exact find_erase _ _ _
  refine ⟨?_, ?_, ?_⟩
  · by_cases h0 : uipTimerId = 0
    · simp [TimerProc, h0]
    · have := hfind uipTimerId h0
      simp only [if_true] at this
      simp [TimerProc, h0, this]
  · intro k hk
    by_cases h0 : uipTimerId = 0
    · subst h0
      have : RemoveTimer 0 m = (m, []) := by simp [RemoveTimer]
      rw [this]
      unfold TimerProc
      by_cases hk0 : k = 0
      · simp [hk0]
      · cases hf : find k m <;> simp [hk0]
    · have hf := hfind k h0
      simp only [hk, if_false] at hf
      unfold TimerProc
      rw [hf]
      by_cases hk0 : k = 0
      · simp [hk0]
      · cases hf' : find k m <;> simp [hk0]
  · intro k cb _ hk0 hf
    simp [TimerProc, hk0, hf, CTimerExpireCallback.call]

/-- Witness for C5, the scenario of the specification: `Add(data1, 1000) = 5` and
`Add(data2, 500) = 6` with an always-false comparer, then `RemoveTimer(5)`: the
map holds only id 6, `TimerProc(5)` calls nothing and `TimerProc(6)` calls the
handler once with the record carrying `data2`. -/
theorem C5_remove_then_dispatch_witness :
    (AddTimer demoCall ⟨5, 0⟩ 1 2 (some 0) 10 1000 []).ret = 5 ∧
    (AddTimer demoCall ⟨6, 0⟩ 1 2 (some 0) 20 500
      (AddTimer demoCall ⟨5, 0⟩ 1 2 (some 0) 10 1000 []).map).ret = 6 ∧
    (RemoveTimer 5 (AddTimer demoCall ⟨6, 0⟩ 1 2 (some 0) 20 500
      (AddTimer demoCall ⟨5, 0⟩ 1 2 (some 0) 10 1000 []).map).map).1
      = [(6, mkCallback 1 2 (some 0) 20 500 6)] ∧
    (TimerProc 5 (RemoveTimer 5 (AddTimer demoCall ⟨6, 0⟩ 1 2 (some 0) 20 500
      (AddTimer demoCall ⟨5, 0⟩ 1 2 (some 0) 10 1000 []).map).map).1).2 = [] ∧
    (6 ≠ 5 ∧ 6 ≠ 0 ∧
      find 6 (RemoveTimer 5 (AddTimer demoCall ⟨6, 0⟩ 1 2 (some 0) 20 500
        (AddTimer demoCall ⟨5, 0⟩ 1 2 (some 0) 10 1000 []).map).map).1
        = some (mkCallback 1 2 (some 0) 20 500 6)) ∧
    TimerProc 6 (RemoveTimer 5 (AddTimer demoCall ⟨6, 0⟩ 1 2 (some 0) 20 500
      (AddTimer demoCall ⟨5, 0⟩ 1 2 (some 0) 10 1000 []).map).map).1
      = ([(6, mkCallback 1 2 (some 0) 20 500 6)],
          [Effect.invoke 1 2 (mkCallback 1 2 (some 0) 20 500 6)]) :=
  ⟨by decide, by decide, by decide, by decide, by decide,
   (C5_remove_then_dispatch 5 (AddTimer demoCall ⟨6, 0⟩ 1 2 (some 0) 20 500
      (AddTimer demoCall ⟨5, 0⟩ 1 2 (some 0) 10 1000 []).map).map).2.2
      6 (mkCallback 1 2 (some 0) 20 500 6) (by decide) (by decide) (by decide)⟩


/-- C6, as the code has it: for a non-zero id present in the map, `ResetTimer` issues
`KillTimer` for that id and then one `SetTimer`; afterwards the same record
(same owner, user object, handler, comparer, timeout) is stored under the id the
OS returned, with `m_uipTimerID` set to that id; when the OS returned another id
than the old one, the old key is absent and the stored `m_uipTimerID` is no
longer the old key; every key other than the old and the returned id holds what
it held. The elapse value handed to `SetTimer` is left open. -/
theorem C6_ResetTimer_live (env : Env) (uipTimerId : Nat) (m : TimerMap)
    (cb : CTimerExpireCallback) (h0 : uipTimerId ≠ 0) (hf : find uipTimerId m = some cb) :
    (∃ elapse, (ResetTimer env uipTimerId m).2
      = [Effect.killTimer uipTimerId, Effect.setTimer elapse env.setTimerResult]) ∧
    find env.setTimerResult (ResetTimer env uipTimerId m).1
      = some { cb with m_uipTimerID := env.setTimerResult } ∧
    (env.setTimerResult ≠ uipTimerId →
      find uipTimerId (ResetTimer env uipTimerId m).1 = none ∧
      ∀ cb', find env.setTimerResult (ResetTimer env uipTimerId m).1 = some cb' →
        cb'.m_uipTimerID ≠ uipTimerId) ∧
    (∀ k, k ≠ uipTimerId → k ≠ env.setTimerResult →
      find k (ResetTimer env uipTimerId m).1 = find k m) := by
  have hmap : (ResetTimer env uipTimerId m).1
      = assign env.setTimerResult { cb with m_uipTimerID := env.setTimerResult }
          (erase uipTimerId m) := by
    simp [ResetTimer, h0, hf]
  have hnew : find env.setTimerResult (ResetTimer env uipTimerId m).1
      = some { cb with m_uipTimerID := env.setTimerResult } := by
    rw [hmap, find_assign]
    simp
  refine ⟨⟨env.erasedRead, by simp [ResetTimer, h0, hf]⟩, hnew, ?_, ?_⟩
  · intro hne
    constructor
    · rw [hmap, find_assign, find_erase]
      have : ¬ uipTimerId = env.setTimerResult := fun e => hne e.symm
      simp [this]
    · intro cb' hcb'
      rw [hnew] at hcb'
      cases hcb'
      exact hne
  · intro k hk hk'
    rw [hmap, find_assign, find_erase]
    simp [hk, hk']

/-- Witness for C6: resetting the live id 5 when the OS answers 6. -/
theorem C6_ResetTimer_live_witness :
    (5 ≠ 0 ∧ find 5 [(5, mkCallback 1 2 (some 0) 10 1000 5)]
      = some (mkCallback 1 2 (some 0) 10 1000 5)) ∧
    find 6 (ResetTimer ⟨6, 1000⟩ 5 [(5, mkCallback 1 2 (some 0) 10 1000 5)]).1
      = some (mkCallback 1 2 (some 0) 10 1000 6) ∧
    (ResetTimer ⟨6, 1000⟩ 5 [(5, mkCallback 1 2 (some 0) 10 1000 5)]).1
      = [(6, mkCallback 1 2 (some 0) 10 1000 6)] :=
  ⟨by decide,
   (C6_ResetTimer_live ⟨6, 1000⟩ 5 [(5, mkCallback 1 2 (some 0) 10 1000 5)]
      (mkCallback 1 2 (some 0) 10 1000 5) (by decide) (by decide)).2.1,
   by decide⟩

/-- C6, counterexample to "the old id is gone and the record's timerId changes": the
registry holds one record under id 5, every key is scheduled, and the OS, asked
for a timer right after timer 5 was cancelled, hands out 5 again, which is then
not scheduled; the read through the erased iterator is taken to give the stored
timeout. After `ResetTimer(5)` the old id still maps to the record and the
record's `m_uipTimerID` has not changed. -/
theorem C6_ResetTimer_same_id_counterexample :
    5 ≠ 0 ∧
    find 5 [(5, mkCallback 1 2 (some 0) 10 1000 5)] = some (mkCallback 1 2 (some 0) 10 1000 5) ∧
    OsOk [5] (ResetTimer ⟨5, 1000⟩ 5 [(5, mkCallback 1 2 (some 0) 10 1000 5)]).2 ∧
    ¬ (find 5 (ResetTimer ⟨5, 1000⟩ 5 [(5, mkCallback 1 2 (some 0) 10 1000 5)]).1 = none) ∧
    ¬ (∀ cb', find 5 (ResetTimer ⟨5, 1000⟩ 5 [(5, mkCallback 1 2 (some 0) 10 1000 5)]).1
        = some cb' →
      cb'.m_uipTimerID ≠ (mkCallback 1 2 (some 0) 10 1000 5).m_uipTimerID) := by
  refine ⟨by decide, by decide, by decide, by decide, ?_⟩
  intro h
  exact h (mkCallback 1 2 (some 0) 10 1000 5) (by decide) rfl

/-! ## Sequences of calls -/

theorem keyed_erase (k : Nat) (m : TimerMap) (h : KeyedById m) : KeyedById (erase k m) := by
  intro e he
  exact h e ((mem_erase k e m).mp he).1

theorem keyed_assign (k : Nat) (cb : CTimerExpireCallback) (m : TimerMap)
    (hcb : cb.m_uipTimerID = k) (h : KeyedById m) : KeyedById (assign k cb m) := by
  induction m with
  | nil =>
    intro e he
    simp only [assign, List.mem_singleton] at he
    subst he
    exact hcb
  | cons e rest ih =>
    obtain ⟨a, c⟩ := e
    have hrest : KeyedById rest := fun e he => h e (List.mem_cons_of_mem _ he)
    have hhead : c.m_uipTimerID = a := h (a, c) (List.mem_cons_self _ _)
    unfold assign
    by_cases h1 : a < k
    · simp only [h1, if_true]
      intro e he
      rcases List.mem_cons.mp he with he | he
      · subst he; exact hhead
      · exact ih hrest e he
    · by_cases h2 : a = k
      · subst h2
        simp only [h1, if_false, if_true]
        intro e he
        rcases List.mem_cons.mp he with he | he
        · subst he; exact hcb
        · exact hrest e he
      · simp only [h1, h2, if_false]
        intro e he
        rcases List.mem_cons.mp he with he | he
        · subst he; exact hcb
        · exact h e he

theorem keyed_ResetTimer (env : Env) (id : Nat) (m : TimerMap) (h : KeyedById m) :
    KeyedById (ResetTimer env id m).1 := by
  unfold ResetTimer
  by_cases h0 : id = 0
  · simpa [h0] using h
  · cases hf : find id m with
    | none => simpa [h0] using h
    | some cb =>
      simp only [h0, if_false]
      exact keyed_assign _ _ _ rfl (keyed_erase _ _ h)

theorem keyed_RemoveTimer (id : Nat) (m : TimerMap) (h : KeyedById m) :
    KeyedById (RemoveTimer id m).1 := by
  unfold RemoveTimer
  by_cases h0 : id = 0
  · simpa [h0] using h
  · cases hf : find id m with
    | none => simpa [h0] using h
    | some cb =>
      simp only [h0, if_false]
      exact keyed_erase _ _ h

theorem keyed_step (call : CompareSem) (s : Run) (c : Command × Env) (h : KeyedById s.map) :
    KeyedById (step call s c).map := by
  obtain ⟨cmd, env⟩ := c
  cases cmd with
  | add o t cmp p ms =>
    simp only [step, AddTimer]
    cases hfm : firstMatch call p s.map with
    | none => exact keyed_assign _ _ _ rfl h
    | some kc => exact keyed_ResetTimer _ _ _ h
  | reset id => exact keyed_ResetTimer _ _ _ h
  | removeByObject p =>
    simp only [step, RemoveTimerByObject]
    split
    · exact keyed_RemoveTimer _ _ h
    · exact h
  | removeById id => exact keyed_RemoveTimer _ _ h
  | dispatch id =>
    simp only [step, TimerProc]
    by_cases h0 : id = 0
    · simpa [h0] using h
    · cases hf : find id s.map <;> simpa [h0] using h

theorem keyed_run (call : CompareSem) (script : List (Command × Env)) (s : Run)
    (h : KeyedById s.map) : KeyedById (run call s script).map := by
  induction script generalizing s with
  | nil => exact h
  | cons c rest ih => exact ih (step call s c) (keyed_step call s c h)

/-- C7: starting from the empty registry, after any sequence of `AddTimer`,
`ResetTimer`, `RemoveTimer(UINT_PTR)`, `RemoveTimer(void*)` and `TimerProc`
calls, whatever ids the OS returns and whatever the comparers answer, every
record in the map has its `m_uipTimerID` equal to the key it is stored under. -/
theorem C7_timerId_is_key (call : CompareSem) (script : List (Command × Env)) :
    ∀ e ∈ (run call Run.init script).map, e.2.m_uipTimerID = e.1 :=
  keyed_run call script Run.init (by intro e he; simp [Run.init] at he)


/-- Witness for C7: after the mixed run the registry holds the first record under
id 9, and its `m_uipTimerID` is 9. -/
theorem C7_timerId_is_key_witness :
    (9, mkCallback 1 2 (some 1) 10 1000 9) ∈ (run demoCall Run.init demoMixed).map ∧
    (mkCallback 1 2 (some 1) 10 1000 9).m_uipTimerID = 9 :=
  ⟨by decide,
   C7_timerId_is_key demoCall demoMixed (9, mkCallback 1 2 (some 1) 10 1000 9) (by decide)⟩

theorem pendingAfter_append (p : List Nat) (a b : List Effect) :
    pendingAfter p (a ++ b) = pendingAfter (pendingAfter p a) b := by
  induction a generalizing p with
  | nil => rfl
  | cons e rest ih =>
    rw [List.cons_append]
    cases e <;> exact ih _

theorem OsOk_append (p : List Nat) (a b : List Effect) :
    OsOk p (a ++ b) ↔ OsOk p a ∧ OsOk (pendingAfter p a) b := by
  induction a generalizing p with
  | nil => simp [OsOk, pendingAfter]
  | cons e rest ih =>
    rw [List.cons_append]
    cases e with
    | setTimer el ret =>
      show (ret ≠ 0 ∧ ret ∉ p ∧ OsOk (ret :: p) (rest ++ b)) ↔
        (ret ≠ 0 ∧ ret ∉ p ∧ OsOk (ret :: p) rest) ∧ OsOk (pendingAfter (ret :: p) rest) b
      rw [ih]
      tauto
    | killTimer id => exact ih _
    | deleteCallback cb => exact ih _
    | deleteObject q => exact ih _
    | invoke ow fn arg => exact ih _

theorem run_append (call : CompareSem) (s : Run) (a : List (Command × Env)) (c : Command × Env) :
    run call s (a ++ [c]) = step call (run call s a) c := by
  simp [run, List.foldl_append]

theorem addsInv_step (call : CompareSem) (s : Run) (n : Nat) (env : Env)
    (o t : Nat) (cmp : Option Nat) (p ms : Nat)
    (hcmp : ∀ fn, cmp = some fn → ∀ ow a b, call ow fn a b = false)
    (hinv : AddsInv call s n)
    (hos : OsOk [] (step call s (Command.add o t cmp p ms, env)).trace) :
    AddsInv call (step call s (Command.add o t cmp p ms, env)) (n + 1) := by
  have hfm : firstMatch call p s.map = none :=
    (firstMatch_none_iff call p s.map).mpr (fun e he => hinv.never e he p)
  have hstep : step call s (Command.add o t cmp p ms, env)
      = { map := assign env.setTimerResult (mkCallback o t cmp p ms env.setTimerResult) s.map,
          trace := s.trace ++ [Effect.setTimer ms env.setTimerResult],
          rets := s.rets ++ [env.setTimerResult] } := by
    simp [step, AddTimer, hfm, mkCallback]
  rw [hstep] at hos ⊢
  simp only at hos
  rw [OsOk_append] at hos
  obtain ⟨-, hne, hfresh, -⟩ := hos
  have hnotkey : env.setTimerResult ∉ keys s.map := fun h => hfresh (hinv.keysSched _ h)
  have hpend : pendingAfter [] (s.trace ++ [Effect.setTimer ms env.setTimerResult])
      = env.setTimerResult :: pendingAfter [] s.trace := by
    rw [pendingAfter_append]; rfl
  refine ⟨?_, ?_, ?_, ?_, ?_, ?_, ?_⟩
  · intro e he q
    have hmem := (assign_perm _ (mkCallback o t cmp p ms env.setTimerResult) _ hnotkey).mem_iff.mp he
    rcases List.mem_cons.mp hmem with h | h
    · subst h
      cases hc : cmp with
      | none => simp [Accepts, CTimerExpireCallback.PerformComparison, mkCallback, hc]
      | some fn =>
        simp [Accepts, CTimerExpireCallback.PerformComparison, mkCallback, hc,
          hcmp fn hc]
    · exact hinv.never e h q
  · intro k hk
    simp only at hk ⊢
    rw [hpend]
    rcases (keys_assign_mem _ _ _ _).mp hk with h | h
    · simp [h]
    · exact List.mem_cons_of_mem _ (hinv.keysSched k h)
  · intro r hr
    simp only at hr ⊢
    rw [hpend]
    rcases List.mem_append.mp hr with h | h
    · exact List.mem_cons_of_mem _ (hinv.retsSched r h)
    · simp only [List.mem_singleton] at h
      simp [h]
  · intro r hr
    simp only at hr
    rcases List.mem_append.mp hr with h | h
    · exact hinv.retsNonzero r h
    · simp only [List.mem_singleton] at h
      rw [h]; exact hne
  · simp only
    rw [List.nodup_append]
    refine ⟨hinv.retsNodup, List.nodup_singleton _, ?_⟩
    intro a ha hb
    simp only [List.mem_singleton] at hb
    subst hb
    exact hfresh (hinv.retsSched _ ha)
  · simp only
    rw [(assign_perm _ _ _ hnotkey).length_eq, List.length_cons, hinv.mapLen]
  · simp [hinv.retsLen]

theorem step_trace_extends (call : CompareSem) (s : Run) (c : Command × Env) :
    ∃ ext, (step call s c).trace = s.trace ++ ext := by
  obtain ⟨cmd, env⟩ := c
  cases cmd <;> exact ⟨_, rfl⟩

theorem addsInv_run (call : CompareSem) (script : List (Command × Env))
    (hadd : ∀ c ∈ script, ∃ o t cmp p ms, c.1 = Command.add o t cmp p ms ∧
      ∀ fn, cmp = some fn → ∀ ow a b, call ow fn a b = false)
    (hos : OsOk [] (run call Run.init script).trace) :
    AddsInv call (run call Run.init script) script.length := by
  induction script using List.reverseRecOn with
  | nil =>
    refine ⟨?_, ?_, ?_, ?_, ?_, rfl, rfl⟩ <;> simp [run, Run.init, keys]
  | append_singleton rest c ih =>
    obtain ⟨cmd, env⟩ := c
    obtain ⟨o, t, cmp, p, ms, hc, hfalse⟩ := hadd (cmd, env) (by simp)
    simp only at hc
    subst hc
    rw [run_append] at hos ⊢
    have hprev : OsOk [] (run call Run.init rest).trace := by
      obtain ⟨ext, hext⟩ := step_trace_extends call (run call Run.init rest)
        (Command.add o t cmp p ms, env)
      rw [hext, OsOk_append] at hos
      exact hos.1
    have hinv := ih (fun c hc => hadd c (List.mem_append_left _ hc)) hprev
    rw [List.length_append, List.length_singleton]
    exact addsInv_step call _ _ env o t cmp p ms hfalse hinv hos

/-- C8: starting from the empty registry, for every sequence of `AddTimer` calls whose
comparers never answer `true` (a null comparer included), if every `SetTimer` along
the run returned a non-zero id that was not scheduled at that moment, then the
map ends with as many records as there were calls, every call returned an id,
every returned id is non-zero, and the returned ids are pairwise distinct. -/
theorem C8_adds_count_and_distinct (call : CompareSem) (script : List (Command × Env))
    (hadd : ∀ c ∈ script, ∃ o t cmp p ms, c.1 = Command.add o t cmp p ms ∧
      ∀ fn, cmp = some fn → ∀ ow a b, call ow fn a b = false)
    (hos : OsOk [] (run call Run.init script).trace) :
    (run call Run.init script).map.length = script.length ∧
    (run call Run.init script).rets.length = script.length ∧
    (∀ r ∈ (run call Run.init script).rets, r ≠ 0) ∧
    (run call Run.init script).rets.Nodup :=
  have hinv := addsInv_run call script hadd hos
  ⟨hinv.mapLen, hinv.retsLen, hinv.retsNonzero, hinv.retsNodup⟩


/-- Witness for C8: three adds with an always-false comparer, the OS answering 5, 6
and 7, give three records and the three distinct non-zero ids. -/
theorem C8_adds_count_and_distinct_witness :
    OsOk [] (run demoCall Run.init demoAdds).trace ∧
    (run demoCall Run.init demoAdds).rets = [5, 6, 7] ∧
    ((run demoCall Run.init demoAdds).map.length = demoAdds.length ∧
     (run demoCall Run.init demoAdds).rets.length = demoAdds.length ∧
     (∀ r ∈ (run demoCall Run.init demoAdds).rets, r ≠ 0) ∧
     (run demoCall Run.init demoAdds).rets.Nodup) :=
  ⟨by decide, by decide,
   C8_adds_count_and_distinct demoCall demoAdds
     (by
       intro c hc
       have hz : ∀ fn, some 0 = some fn → ∀ ow a b : Nat, demoCall ow fn a b = false := by
         intro fn hfn ow a b
         cases hfn
         rfl
       simp only [demoAdds, List.mem_cons, List.mem_singleton, List.not_mem_nil, or_false] at hc
       rcases hc with h | h | h
       · exact ⟨1, 2, some 0, 10, 1000, by rw [h], hz⟩
       · exact ⟨1, 2, some 0, 20, 500, by rw [h], hz⟩
       · exact ⟨3, 4, some 0, 10, 250, by rw [h], hz⟩)
     (by decide)⟩

/-- C9: when no live record's comparer accepts the supplied user object,
`RemoveTimer(void*)` does nothing: the map is returned as it was, entry for
entry, and no OS call, no `delete` and no handler call is made. -/
theorem C9_RemoveTimerByObject_no_match (call : CompareSem) (pObjectPtr : Nat) (m : TimerMap)
    (hno : ∀ e ∈ m, ¬ Accepts call pObjectPtr e.2) :
    RemoveTimerByObject call pObjectPtr m = (m, []) := by
  have hfm : firstMatch call pObjectPtr m = none := (firstMatch_none_iff call pObjectPtr m).mpr hno
  simp [RemoveTimerByObject, hfm]

/-- Witness for C9: a registry of three records with always-false comparers. -/
theorem C9_RemoveTimerByObject_no_match_witness :
    (∀ e ∈ (run demoCall Run.init demoAdds).map, ¬ Accepts demoCall 10 e.2) ∧
    RemoveTimerByObject demoCall 10 (run demoCall Run.init demoAdds).map
      = ((run demoCall Run.init demoAdds).map, []) :=
  ⟨by decide,
   C9_RemoveTimerByObject_no_match demoCall 10 (run demoCall Run.init demoAdds).map (by decide)⟩

theorem ordered_append_lt (pre post : TimerMap) (k : Nat) (cb : CTimerExpireCallback)
    (ho : Ordered (pre ++ (k, cb) :: post)) :
    (∀ e ∈ pre, e.1 < k) ∧ (∀ e ∈ post, k < e.1) := by
  unfold Ordered keys at ho
  rw [List.map_append, List.map_cons, List.pairwise_append] at ho
  obtain ⟨-, hright, hcross⟩ := ho
  constructor
  · intro e he
    exact hcross e.1 (List.mem_map_of_mem Prod.fst he) k (List.mem_cons_self _ _)
  · intro e he
    exact (List.pairwise_cons.mp hright).1 e.1 (List.mem_map_of_mem Prod.fst he)

/-- C10: in an ordered map in which at least one record's comparer accepts the supplied
user object, let `k` be the least key whose record accepts it. Then
`RemoveTimer(void*)` does exactly what `RemoveTimer(k)` does, map and trace; and
when `k` is non-zero the map loses exactly the entry under `k` and keeps every
other entry, other accepting records included. -/
theorem C10_RemoveTimerByObject_first_match (call : CompareSem) (pObjectPtr : Nat)
    (m : TimerMap) (ho : Ordered m) (hacc : ∃ e ∈ m, Accepts call pObjectPtr e.2) :
    ∃ k cb, (k, cb) ∈ m ∧ Accepts call pObjectPtr cb ∧
      (∀ e ∈ m, Accepts call pObjectPtr e.2 → k ≤ e.1) ∧
      RemoveTimerByObject call pObjectPtr m = RemoveTimer k m ∧
      (k ≠ 0 →
        (∀ e, e ∈ (RemoveTimerByObject call pObjectPtr m).1 ↔ e ∈ m ∧ e ≠ (k, cb)) ∧
        (RemoveTimerByObject call pObjectPtr m).1.length + 1 = m.length) := by
  cases hfm : firstMatch call pObjectPtr m with
  | none =>
    obtain ⟨e, he, hacc⟩ := hacc
    exact absurd hacc ((firstMatch_none_iff call pObjectPtr m).mp hfm e he)
  | some kc =>
    obtain ⟨k, cb⟩ := kc
    obtain ⟨pre, post, hm, hk, hpre⟩ := firstMatch_some call pObjectPtr m k cb hfm
    have hmem : (k, cb) ∈ m := by rw [hm]; simp
    have hfind : find k m = some cb := find_of_mem_ordered k cb m ho hmem
    obtain ⟨hlt, hgt⟩ := ordered_append_lt pre post k cb (hm ▸ ho)
    have heq : RemoveTimerByObject call pObjectPtr m = RemoveTimer k m := by
      unfold RemoveTimerByObject
      rw [hfm]
      by_cases h0 : k = 0
      · simp [h0, RemoveTimer]
      · simp [h0]
    refine ⟨k, cb, hmem, hk, ?_, heq, ?_⟩
    · intro e he hacc'
      rw [hm] at he
      rcases List.mem_append.mp he with h | h
      · exact absurd hacc' (hpre e h)
      · rcases List.mem_cons.mp h with h | h
        · rw [h]
        · exact Nat.le_of_lt (hgt e h)
    · intro h0
      have hmap : (RemoveTimerByObject call pObjectPtr m).1 = erase k m := by
        rw [heq]
        simp [RemoveTimer, h0, hfind]
      constructor
      · intro e
        rw [hmap, mem_erase]
        constructor
        · rintro ⟨he, hne⟩
          exact ⟨he, fun h => hne (by rw [h])⟩
        · rintro ⟨he, hne⟩
          refine ⟨he, fun h => hne ?_⟩
          obtain ⟨a, c⟩ := e
          simp only at h
          subst h
          have := find_of_mem_ordered a c m ho he
          rw [hfind] at this
          cases this
          rfl
      · rw [hmap]
        have := (erase_perm k cb m ho hfind).length_eq
        simp only [List.length_cons] at this
        exact this.symm

/-- Witness for C10: records under ids 3 and 7 both accept; `RemoveTimer(void*)` acts as
`RemoveTimer(3)` and the record under 7 stays. -/
theorem C10_RemoveTimerByObject_first_match_witness :
    Ordered demoTwoMatches ∧
    (∃ e ∈ demoTwoMatches, Accepts demoCall 20 e.2) ∧
    RemoveTimerByObject demoCall 20 demoTwoMatches = RemoveTimer 3 demoTwoMatches ∧
    (RemoveTimerByObject demoCall 20 demoTwoMatches).1
      = [(2, ⟨1, 9, 2, 2, 100, some 0⟩), (7, ⟨1, 20, 7, 2, 500, some 1⟩)] ∧
    (∃ k cb, (k, cb) ∈ demoTwoMatches ∧ Accepts demoCall 20 cb ∧
      (∀ e ∈ demoTwoMatches, Accepts demoCall 20 e.2 → k ≤ e.1) ∧
      RemoveTimerByObject demoCall 20 demoTwoMatches = RemoveTimer k demoTwoMatches ∧
      (k ≠ 0 →
        (∀ e, e ∈ (RemoveTimerByObject demoCall 20 demoTwoMatches).1 ↔
          e ∈ demoTwoMatches ∧ e ≠ (k, cb)) ∧
        (RemoveTimerByObject demoCall 20 demoTwoMatches).1.length + 1
          = demoTwoMatches.length)) :=
  ⟨by decide, by decide, by decide, by decide,
   C10_RemoveTimerByObject_first_match demoCall 20 demoTwoMatches (by decide) (by decide)⟩

/-- C11: `ResetTimer` on an id that names no record is total and leaves the map as it
was: for id 0 it does nothing at all; for a non-zero id absent from the map it
issues exactly one `KillTimer` for that id, no `SetTimer`, and nothing else. -/
theorem C11_ResetTimer_no_record (env : Env) (uipTimerId : Nat) (m : TimerMap) :
    (uipTimerId = 0 → ResetTimer env uipTimerId m = (m, [])) ∧
    (uipTimerId ≠ 0 → find uipTimerId m = none →
      ResetTimer env uipTimerId m = (m, [Effect.killTimer uipTimerId]) ∧
      setTimerCount (ResetTimer env uipTimerId m).2 = 0) := by
  constructor
  · intro h0
    simp [ResetTimer, h0]
  · intro h0 hf
    simp [ResetTimer, h0, hf, setTimerCount]

/-- Witness for C11: resetting the absent id 9, and id 0, in a registry holding id 5. -/
theorem C11_ResetTimer_no_record_witness :
    (9 ≠ 0 ∧ find 9 demoOneMatch = none) ∧
    ResetTimer ⟨6, 1000⟩ 9 demoOneMatch = (demoOneMatch, [Effect.killTimer 9]) ∧
    ResetTimer ⟨6, 1000⟩ 0 demoOneMatch = (demoOneMatch, []) :=
  ⟨by decide,
   ((C11_ResetTimer_no_record ⟨6, 1000⟩ 9 demoOneMatch).2 (by decide) (by decide)).1,
   (C11_ResetTimer_no_record ⟨6, 1000⟩ 0 demoOneMatch).1 rfl⟩

theorem mem_keys_of_mem (k : Nat) (cb : CTimerExpireCallback) (m : TimerMap)
    (h : (k, cb) ∈ m) : k ∈ keys m :=
  List.mem_map_of_mem Prod.fst h

theorem firstMatch_of_accepts (call : CompareSem) (p : Nat) (m : TimerMap)
    (hacc : ∃ e ∈ m, Accepts call p e.2) :
    ∃ k cb, firstMatch call p m = some (k, cb) ∧ (k, cb) ∈ m ∧ Accepts call p cb := by
  cases hfm : firstMatch call p m with
  | none =>
    obtain ⟨e, he, hacc⟩ := hacc
    exact absurd hacc ((firstMatch_none_iff call p m).mp hfm e he)
  | some kc =>
    obtain ⟨k, cb⟩ := kc
    obtain ⟨pre, post, hm, hk, -⟩ := firstMatch_some call p m k cb hfm
    exact ⟨k, cb, rfl, by rw [hm]; simp, hk⟩

/-- C12, as the code has it: `AddTimer` issues exactly one `SetTimer` when it creates a
record. When it coalesces with a record stored under a non-zero id it issues
`KillTimer` for that id followed by exactly one `SetTimer`, the one `ResetTimer`
makes; when the matched record is stored under key 0 it issues nothing. -/
theorem C12_AddTimer_schedule_count (call : CompareSem) (env : Env) (pClassPtr pTimerProc : Nat)
    (pComparer : Option Nat) (pObjectPtr uiTimeoutValue : Nat) (m : TimerMap) :
    ((∀ e ∈ m, ¬ Accepts call pObjectPtr e.2) →
      setTimerCount
        (AddTimer call env pClassPtr pTimerProc pComparer pObjectPtr uiTimeoutValue m).trace
        = 1) ∧
    ((∃ e ∈ m, Accepts call pObjectPtr e.2) →
      ∃ k cb, (k, cb) ∈ m ∧ Accepts call pObjectPtr cb ∧
        (k ≠ 0 →
          (∃ elapse,
            (AddTimer call env pClassPtr pTimerProc pComparer pObjectPtr uiTimeoutValue m).trace
              = [Effect.killTimer k, Effect.setTimer elapse env.setTimerResult]) ∧
          setTimerCount
            (AddTimer call env pClassPtr pTimerProc pComparer pObjectPtr uiTimeoutValue m).trace
            = 1) ∧
        (k = 0 →
          (AddTimer call env pClassPtr pTimerProc pComparer pObjectPtr uiTimeoutValue m).trace
            = [])) := by
  constructor
  · intro hno
    have hfm : firstMatch call pObjectPtr m = none :=
      (firstMatch_none_iff call pObjectPtr m).mpr hno
    simp [AddTimer, hfm, setTimerCount]
  · intro hacc
    obtain ⟨k, cb, hfm, hmem, hk⟩ := firstMatch_of_accepts call pObjectPtr m hacc
    refine ⟨k, cb, hmem, hk, ?_, ?_⟩
    · intro h0
      have hkey : find k m ≠ none := fun h =>
        (find_eq_none_iff k m).mp h (mem_keys_of_mem k cb m hmem)
      obtain ⟨cb', hcb'⟩ := Option.ne_none_iff_exists'.mp hkey
      simp [AddTimer, hfm, ResetTimer, h0, hcb', setTimerCount]
    · intro h0
      simp [AddTimer, hfm, ResetTimer, h0]

/-- Witness for C12: a coalescing add on the record under id 5, the OS answering 6. -/
theorem C12_AddTimer_schedule_count_witness :
    (∃ e ∈ demoOneMatch, Accepts demoCall 20 e.2) ∧
    (∃ k cb, (k, cb) ∈ demoOneMatch ∧ Accepts demoCall 20 cb ∧
      (k ≠ 0 →
        (∃ elapse, (AddTimer demoCall ⟨6, 1000⟩ 1 2 (some 1) 20 2000 demoOneMatch).trace
          = [Effect.killTimer k, Effect.setTimer elapse 6]) ∧
        setTimerCount (AddTimer demoCall ⟨6, 1000⟩ 1 2 (some 1) 20 2000 demoOneMatch).trace
          = 1) ∧
      (k = 0 → (AddTimer demoCall ⟨6, 1000⟩ 1 2 (some 1) 20 2000 demoOneMatch).trace = [])) :=
  ⟨by decide,
   (C12_AddTimer_schedule_count demoCall ⟨6, 1000⟩ 1 2 (some 1) 20 2000 demoOneMatch).2
     (by decide)⟩

/-- C12, counterexample to "zero `SetTimer` calls on coalesce": the record under id 5
accepts the new user object, so the add coalesces and returns 0, and its trace
holds one `SetTimer`. -/
theorem C12_coalesce_schedules_counterexample :
    (∃ e ∈ demoOneMatch, Accepts demoCall 20 e.2) ∧
    (AddTimer demoCall ⟨6, 1000⟩ 1 2 (some 1) 20 2000 demoOneMatch).ret = 0 ∧
    (AddTimer demoCall ⟨6, 1000⟩ 1 2 (some 1) 20 2000 demoOneMatch).trace
      = [Effect.killTimer 5, Effect.setTimer 1000 6] ∧
    ¬ (setTimerCount (AddTimer demoCall ⟨6, 1000⟩ 1 2 (some 1) 20 2000 demoOneMatch).trace
      = 0) := by
  refine ⟨by decide, by decide, by decide, by decide⟩

theorem deletedObjects_Destroy (m : TimerMap) :
    deletedObjects (Destroy m).2 = userObjects m := by
  induction m with
  | nil => rfl
  | cons e rest ih =>
    simp only [Destroy, List.map_cons, deletedObjects, userObjects] at ih ⊢
    rw [ih]

/-- C13, as the code has it: the destructor leaves the map empty and issues exactly one
`delete` per live record, on that record's user object, in map order; so when no
two live records carry the same user object, every live user object is deleted
exactly once. -/
theorem C13_Destroy_deletes_each_once (m : TimerMap) :
    (Destroy m).1 = [] ∧
    deletedObjects (Destroy m).2 = userObjects m ∧
    ((userObjects m).Nodup →
      ∀ e ∈ m, (deletedObjects (Destroy m).2).count e.2.m_pObjectPtr = 1) := by
  refine ⟨rfl, deletedObjects_Destroy m, ?_⟩
  intro hnd e he
  rw [deletedObjects_Destroy]
  have hmem : e.2.m_pObjectPtr ∈ userObjects m :=
    List.mem_map_of_mem (fun e : Nat × CTimerExpireCallback => e.2.m_pObjectPtr) he
  exact List.count_eq_one_of_mem hnd hmem

/-- Witness for C13: two records carrying the distinct user objects 10 and 20. -/
theorem C13_Destroy_deletes_each_once_witness :
    (userObjects [(5, mkCallback 1 2 none 10 1000 5), (6, mkCallback 1 2 none 20 500 6)]).Nodup ∧
    (5, mkCallback 1 2 none 10 1000 5)
      ∈ [(5, mkCallback 1 2 none 10 1000 5), (6, mkCallback 1 2 none 20 500 6)] ∧
    (deletedObjects
      (Destroy [(5, mkCallback 1 2 none 10 1000 5), (6, mkCallback 1 2 none 20 500 6)]).2).count
        10 = 1 :=
  ⟨by decide, by decide,
   (C13_Destroy_deletes_each_once
      [(5, mkCallback 1 2 none 10 1000 5), (6, mkCallback 1 2 none 20 500 6)]).2.2
      (by decide) (5, mkCallback 1 2 none 10 1000 5) (by decide)⟩

/-- C13, counterexample to "none released twice": two adds of the same user object 10
with a null comparer give two live records carrying it, and the destructor then
deletes 10 twice. -/
theorem C13_shared_object_deleted_twice_counterexample :
    (AddTimer demoCall ⟨6, 0⟩ 1 2 none 10 500
      (AddTimer demoCall ⟨5, 0⟩ 1 2 none 10 1000 []).map).map = demoShared ∧
    deletedObjects (Destroy demoShared).2 = [10, 10] ∧
    ¬ ((deletedObjects (Destroy demoShared).2).count 10 = 1) := by
  refine ⟨by decide, by decide, by decide⟩

/-- C14, the code at a registry holding one live record under id 5, timer 5 scheduled:
the destructor deletes the user object and clears the map, but it issues no
`KillTimer` and does not delete the record, so id 5 stays scheduled with the OS
while `RemoveTimer(5)` on the same registry cancels it and deletes the record. -/
theorem C14_Destroy_leaves_timer_scheduled :
    (Destroy demoOneMatch).1 = [] ∧
    (Destroy demoOneMatch).2 = [Effect.deleteObject 10] ∧
    osCalls (Destroy demoOneMatch).2 = [] ∧
    pendingAfter [5] (Destroy demoOneMatch).2 = [5] ∧
    (RemoveTimer 5 demoOneMatch).2
      = [Effect.killTimer 5, Effect.deleteCallback (mkCallback 1 2 (some 1) 10 1000 5)] ∧
    pendingAfter [5] (RemoveTimer 5 demoOneMatch).2 = [] := by
  refine ⟨by decide, by decide, by decide, by decide, by decide, by decide⟩

theorem mem_assign_imp (k : Nat) (cb : CTimerExpireCallback) (m : TimerMap)
    (e : Nat × CTimerExpireCallback) (h : e ∈ assign k cb m) : e = (k, cb) ∨ e ∈ m := by
  induction m with
  | nil =>
    simp only [assign, List.mem_singleton] at h
    exact Or.inl h
  | cons x rest ih =>
    obtain ⟨a, c⟩ := x
    unfold assign at h
    by_cases h1 : a < k
    · simp only [h1, if_true] at h
      rcases List.mem_cons.mp h with h | h
      · exact Or.inr (h ▸ List.mem_cons_self _ _)
      · rcases ih h with h | h
        · exact Or.inl h
        · exact Or.inr (List.mem_cons_of_mem _ h)
    · by_cases h2 : a = k
      · subst h2
        simp only [h1, if_false, if_true] at h
        rcases List.mem_cons.mp h with h | h
        · exact Or.inl h
        · exact Or.inr (List.mem_cons_of_mem _ h)
      · simp only [h1, h2, if_false] at h
        rcases List.mem_cons.mp h with h | h
        · exact Or.inl h
        · exact Or.inr h

/-- C15, as the code has it: the comparer argument of `AddTimer` takes no part in the
scan. With a null comparer argument, `AddTimer` creates a record and returns the
OS id when no live record's own comparer accepts the user object, and the record
it stores, having a null comparer, accepts nothing afterwards; when some live
record's comparer accepts, it coalesces and returns 0 all the same. -/
theorem C15_AddTimer_null_comparer (call : CompareSem) (env : Env) (pClassPtr pTimerProc : Nat)
    (pObjectPtr uiTimeoutValue : Nat) (m : TimerMap) :
    ((∀ e ∈ m, ¬ Accepts call pObjectPtr e.2) →
      (AddTimer call env pClassPtr pTimerProc none pObjectPtr uiTimeoutValue m).ret
        = env.setTimerResult ∧
      (AddTimer call env pClassPtr pTimerProc none pObjectPtr uiTimeoutValue m).trace
        = [Effect.setTimer uiTimeoutValue env.setTimerResult] ∧
      find env.setTimerResult
        (AddTimer call env pClassPtr pTimerProc none pObjectPtr uiTimeoutValue m).map
        = some (mkCallback pClassPtr pTimerProc none pObjectPtr uiTimeoutValue
            env.setTimerResult) ∧
      ∀ q, ¬ Accepts call q
        (mkCallback pClassPtr pTimerProc none pObjectPtr uiTimeoutValue env.setTimerResult)) ∧
    ((∃ e ∈ m, Accepts call pObjectPtr e.2) →
      (AddTimer call env pClassPtr pTimerProc none pObjectPtr uiTimeoutValue m).ret = 0 ∧
      ∀ e ∈ (AddTimer call env pClassPtr pTimerProc none pObjectPtr uiTimeoutValue m).map,
        ∃ e' ∈ m, forgetId e.2 = forgetId e'.2) := by
  constructor
  · intro hno
    have hfm : firstMatch call pObjectPtr m = none :=
      (firstMatch_none_iff call pObjectPtr m).mpr hno
    unfold AddTimer
    rw [hfm]
    refine ⟨rfl, rfl, ?_, ?_⟩
    · simp [find_assign, mkCallback]
    · intro q
      simp [Accepts, CTimerExpireCallback.PerformComparison, mkCallback]
  · intro hacc
    obtain ⟨k, cb, hfm, hmem, -⟩ := firstMatch_of_accepts call pObjectPtr m hacc
    unfold AddTimer
    rw [hfm]
    refine ⟨rfl, ?_⟩
    intro e he
    simp only at he
    unfold ResetTimer at he
    by_cases h0 : k = 0
    · simp only [h0, if_true] at he
      exact ⟨e, he, rfl⟩
    · cases hf : find k m with
      | none =>
        simp only [h0, if_false, hf] at he
        exact ⟨e, he, rfl⟩
      | some cb' =>
        simp only [h0, if_false, hf] at he
        rcases mem_assign_imp _ _ _ _ he with h | h
        · exact ⟨(k, cb'), mem_of_find k cb' m hf, by rw [h]; rfl⟩
        · exact ⟨e, ((mem_erase k e m).mp h).1, rfl⟩

/-- Witness for C15: a registry of three records with always-false comparers; an add
with a null comparer, the OS answering 9, creates a record under 9. -/
theorem C15_AddTimer_null_comparer_witness :
    (∀ e ∈ (run demoCall Run.init demoAdds).map, ¬ Accepts demoCall 30 e.2) ∧
    (AddTimer demoCall ⟨9, 0⟩ 3 4 none 30 250 (run demoCall Run.init demoAdds).map).ret = 9 ∧
    (∃ e ∈ demoOneMatch, Accepts demoCall 20 e.2) ∧
    (AddTimer demoCall ⟨6, 1000⟩ 3 4 none 20 2000 demoOneMatch).ret = 0 :=
  ⟨by decide,
   ((C15_AddTimer_null_comparer demoCall ⟨9, 0⟩ 3 4 30 250
      (run demoCall Run.init demoAdds).map).1 (by decide)).1,
   by decide,
   ((C15_AddTimer_null_comparer demoCall ⟨6, 1000⟩ 3 4 20 2000 demoOneMatch).2
      (by decide)).1⟩

/-- C15, counterexample to "a null comparer argument never matches": the record under
id 5 accepts every user object, so an add with a null comparer coalesces with
it; the add returns 0, not the OS id 6, and no record for user object 20 is
stored. -/
theorem C15_null_comparer_coalesces_counterexample :
    (AddTimer demoCall ⟨6, 1000⟩ 3 4 none 20 2000 demoOneMatch).ret = 0 ∧
    ¬ ((AddTimer demoCall ⟨6, 1000⟩ 3 4 none 20 2000 demoOneMatch).ret = 6) ∧
    (AddTimer demoCall ⟨6, 1000⟩ 3 4 none 20 2000 demoOneMatch).map
      = [(6, mkCallback 1 2 (some 1) 10 1000 6)] ∧
    (AddTimer demoCall ⟨6, 1000⟩ 3 4 none 20 2000 demoOneMatch).trace
      = [Effect.killTimer 5, Effect.setTimer 1000 6] := by
  refine ⟨by decide, by decide, by decide, by decide⟩

/-- C17: a record whose comparer is null answers `false` to every comparison; so in a
registry whose records all have a null comparer every `AddTimer`, whatever its
arguments, creates a record under the OS id and returns that id, and every
`RemoveTimer(void*)` does nothing. -/
theorem C17_null_comparer_never_matches (call : CompareSem) :
    (∀ (cb : CTimerExpireCallback) (a b : Nat), cb.pfnCompareObjects = none →
      cb.PerformComparison call a b = false) ∧
    (∀ m : TimerMap, (∀ e ∈ m, e.2.pfnCompareObjects = none) →
      (∀ (env : Env) (o t : Nat) (cmp : Option Nat) (p ms : Nat),
        (AddTimer call env o t cmp p ms m).ret = env.setTimerResult ∧
        (AddTimer call env o t cmp p ms m).trace = [Effect.setTimer ms env.setTimerResult] ∧
        find env.setTimerResult (AddTimer call env o t cmp p ms m).map
          = some (mkCallback o t cmp p ms env.setTimerResult) ∧
        (∀ k, k ≠ env.setTimerResult →
          find k (AddTimer call env o t cmp p ms m).map = find k m)) ∧
      (∀ p, RemoveTimerByObject call p m = (m, []))) := by
  have hpc : ∀ (cb : CTimerExpireCallback) (a b : Nat), cb.pfnCompareObjects = none →
      cb.PerformComparison call a b = false := by
    intro cb a b h
    simp [CTimerExpireCallback.PerformComparison, h]
  refine ⟨hpc, ?_⟩
  intro m hm
  have hfm : ∀ p, firstMatch call p m = none := by
    intro p
    refine (firstMatch_none_iff call p m).mpr ?_
    intro e he hacc
    unfold Accepts at hacc
    rw [hpc e.2 _ _ (hm e he)] at hacc
    exact Bool.false_ne_true hacc
  constructor
  · intro env o t cmp p ms
    unfold AddTimer
    rw [hfm p]
    refine ⟨rfl, rfl, ?_, ?_⟩
    · simp [find_assign, mkCallback]
    · intro k hk
      simp [find_assign, hk]
  · intro p
    simp [RemoveTimerByObject, hfm p]

/-- Witness for C17: two records with null comparers that carry the same user object
10; adding user object 10 again creates a record, removing by object 10 does
nothing. -/
theorem C17_null_comparer_never_matches_witness :
    (∀ e ∈ demoShared, e.2.pfnCompareObjects = none) ∧
    (AddTimer demoCall ⟨8, 0⟩ 1 2 (some 1) 10 250 demoShared).ret = 8 ∧
    RemoveTimerByObject demoCall 10 demoShared = (demoShared, []) :=
  ⟨by decide,
   (((C17_null_comparer_never_matches demoCall).2 demoShared (by decide)).1
      ⟨8, 0⟩ 1 2 (some 1) 10 250).1,
   ((C17_null_comparer_never_matches demoCall).2 demoShared (by decide)).2 10⟩

theorem firstMatch_least (call : CompareSem) (p : Nat) (m : TimerMap) (k : Nat)
    (cb : CTimerExpireCallback) (ho : Ordered m) (hfm : firstMatch call p m = some (k, cb)) :
    ∀ e ∈ m, Accepts call p e.2 → k ≤ e.1 := by
  obtain ⟨pre, post, hm, -, hpre⟩ := firstMatch_some call p m k cb hfm
  obtain ⟨-, hgt⟩ := ordered_append_lt pre post k cb (hm ▸ ho)
  intro e he hacc
  rw [hm] at he
  rcases List.mem_append.mp he with h | h
  · exact absurd hacc (hpre e h)
  · rcases List.mem_cons.mp h with h | h
    · rw [h]
    · exact Nat.le_of_lt (hgt e h)

/-- C18: the scan of `AddTimer` looks at neither the owner, the handler, the comparer
nor the timeout of the request. Two adds of the same user object on the same
registry both create when no live record accepts it, and otherwise both coalesce
with the same outcome: they return 0 and reset the record under the least key
`k` whose record accepts. A record accepts exactly when its own comparer, called
on its own owner with its own user object and the supplied one, answers `true`. -/
theorem C18_scan_ignores_request (call : CompareSem) (env : Env) (p : Nat) (m : TimerMap)
    (o1 t1 : Nat) (c1 : Option Nat) (ms1 o2 t2 : Nat) (c2 : Option Nat) (ms2 : Nat) :
    (∀ cb : CTimerExpireCallback, Accepts call p cb ↔
      ∃ fn, cb.pfnCompareObjects = some fn ∧
        call cb.m_pClassPtr fn cb.m_pObjectPtr p = true) ∧
    ((∀ e ∈ m, ¬ Accepts call p e.2) →
      (AddTimer call env o1 t1 c1 p ms1 m).ret = env.setTimerResult ∧
      (AddTimer call env o2 t2 c2 p ms2 m).ret = env.setTimerResult ∧
      find env.setTimerResult (AddTimer call env o1 t1 c1 p ms1 m).map
        = some (mkCallback o1 t1 c1 p ms1 env.setTimerResult) ∧
      find env.setTimerResult (AddTimer call env o2 t2 c2 p ms2 m).map
        = some (mkCallback o2 t2 c2 p ms2 env.setTimerResult)) ∧
    ((∃ e ∈ m, Accepts call p e.2) →
      AddTimer call env o1 t1 c1 p ms1 m = AddTimer call env o2 t2 c2 p ms2 m ∧
      ∃ k cb, (k, cb) ∈ m ∧ Accepts call p cb ∧
        (Ordered m → ∀ e ∈ m, Accepts call p e.2 → k ≤ e.1) ∧
        AddTimer call env o1 t1 c1 p ms1 m
          = { ret := 0, map := (ResetTimer env k m).1, trace := (ResetTimer env k m).2 }) := by
  refine ⟨?_, ?_, ?_⟩
  · intro cb
    unfold Accepts CTimerExpireCallback.PerformComparison
    cases hc : cb.pfnCompareObjects with
    | none => simp
    | some fn => simp
  · intro hno
    have hfm : firstMatch call p m = none := (firstMatch_none_iff call p m).mpr hno
    unfold AddTimer
    rw [hfm]
    refine ⟨rfl, rfl, ?_, ?_⟩ <;> simp [find_assign, mkCallback]
  · intro hacc
    obtain ⟨k, cb, hfm, hmem, hk⟩ := firstMatch_of_accepts call p m hacc
    have h1 : AddTimer call env o1 t1 c1 p ms1 m
        = { ret := 0, map := (ResetTimer env k m).1, trace := (ResetTimer env k m).2 } := by
      unfold AddTimer
      rw [hfm]
    have h2 : AddTimer call env o2 t2 c2 p ms2 m
        = { ret := 0, map := (ResetTimer env k m).1, trace := (ResetTimer env k m).2 } := by
      unfold AddTimer
      rw [hfm]
    exact ⟨h1.trans h2.symm, k, cb, hmem, hk,
      fun ho => firstMatch_least call p m k cb ho hfm, h1⟩

/-- Witness for C18: on a registry whose records under 3 and 7 accept, adds from owner 1
and from owner 8 with other handler, comparer and timeout have the same outcome;
on a registry where nothing accepts, both create. -/
theorem C18_scan_ignores_request_witness :
    (∃ e ∈ demoTwoMatches, Accepts demoCall 20 e.2) ∧
    AddTimer demoCall ⟨9, 1000⟩ 1 2 (some 1) 20 2000 demoTwoMatches
      = AddTimer demoCall ⟨9, 1000⟩ 8 4 none 20 50 demoTwoMatches ∧
    (AddTimer demoCall ⟨9, 1000⟩ 8 4 none 20 50 demoTwoMatches).map
      = [(2, ⟨1, 9, 2, 2, 100, some 0⟩), (7, ⟨1, 20, 7, 2, 500, some 1⟩),
         (9, ⟨1, 10, 9, 2, 1000, some 1⟩)] ∧
    (∀ e ∈ (run demoCall Run.init demoAdds).map, ¬ Accepts demoCall 20 e.2) ∧
    (AddTimer demoCall ⟨9, 0⟩ 8 4 none 20 50 (run demoCall Run.init demoAdds).map).ret = 9 :=
  ⟨by decide,
   ((C18_scan_ignores_request demoCall ⟨9, 1000⟩ 20 demoTwoMatches
      1 2 (some 1) 2000 8 4 none 50).2.2 (by decide)).1,
   by decide, by decide,
   ((C18_scan_ignores_request demoCall ⟨9, 0⟩ 20 (run demoCall Run.init demoAdds).map
      1 2 (some 1) 2000 8 4 none 50).2.1 (by decide)).2.1⟩

/-! ## The OS schedule and the key set -/

theorem mem_filter_ne (x k : Nat) (l : List Nat) :
    x ∈ l.filter (fun y => decide (y ≠ k)) ↔ x ∈ l ∧ x ≠ k := by
  simp [List.mem_filter]

theorem sync_ResetTimer (env : Env) (id : Nat) (m : TimerMap) (P : List Nat)
    (h : ∀ x, x ∈ P ↔ x ∈ keys m) :
    ∀ x, x ∈ pendingAfter P (ResetTimer env id m).2 ↔ x ∈ keys (ResetTimer env id m).1 := by
  intro x
  unfold ResetTimer
  by_cases h0 : id = 0
  · simp only [h0, if_true, pendingAfter]
    exact h x
  · cases hf : find id m with
    | none =>
      simp only [h0, if_false, pendingAfter]
      rw [mem_filter_ne, h x]
      have hid : id ∉ keys m := (find_eq_none_iff id m).mp hf
      constructor
      · exact fun hx => hx.1
      · exact fun hx => ⟨hx, fun e => hid (e ▸ hx)⟩
    | some cb =>
      simp only [h0, if_false, pendingAfter]
      rw [keys_assign_mem, keys_erase, mem_filter_ne, List.mem_cons, mem_filter_ne, h x]

theorem sync_RemoveTimer (id : Nat) (m : TimerMap) (P : List Nat)
    (h : ∀ x, x ∈ P ↔ x ∈ keys m) :
    ∀ x, x ∈ pendingAfter P (RemoveTimer id m).2 ↔ x ∈ keys (RemoveTimer id m).1 := by
  intro x
  unfold RemoveTimer
  by_cases h0 : id = 0
  · simp only [h0, if_true, pendingAfter]
    exact h x
  · cases hf : find id m with
    | none =>
      simp only [h0, if_false, pendingAfter]
      rw [mem_filter_ne, h x]
      have hid : id ∉ keys m := (find_eq_none_iff id m).mp hf
      constructor
      · exact fun hx => hx.1
      · exact fun hx => ⟨hx, fun e => hid (e ▸ hx)⟩
    | some cb =>
      simp only [h0, if_false, pendingAfter]
      rw [keys_erase, mem_filter_ne, mem_filter_ne, h x]

theorem sync_step (call : CompareSem) (s : Run) (c : Command × Env) (P : List Nat)
    (h : ∀ x, x ∈ pendingAfter P s.trace ↔ x ∈ keys s.map) :
    ∀ x, x ∈ pendingAfter P (step call s c).trace ↔ x ∈ keys (step call s c).map := by
  obtain ⟨cmd, env⟩ := c
  cases cmd with
  | add o t cmp p ms =>
    simp only [step, pendingAfter_append]
    unfold AddTimer
    cases hfm : firstMatch call p s.map with
    | none =>
      intro x
      simp only [pendingAfter]
      rw [keys_assign_mem, List.mem_cons, h x]
    | some kc => exact sync_ResetTimer env kc.1 s.map _ h
  | reset id =>
    simp only [step, pendingAfter_append]
    exact sync_ResetTimer env id s.map _ h
  | removeByObject p =>
    simp only [step, pendingAfter_append, RemoveTimerByObject]
    split
    · exact sync_RemoveTimer _ s.map _ h
    · simpa [pendingAfter] using h
  | removeById id =>
    simp only [step, pendingAfter_append]
    exact sync_RemoveTimer id s.map _ h
  | dispatch id =>
    simp only [step, pendingAfter_append, TimerProc]
    by_cases h0 : id = 0
    · simpa [h0, pendingAfter] using h
    · cases hf : find id s.map with
      | none => simpa [h0, pendingAfter] using h
      | some cb => simpa [h0, pendingAfter, CTimerExpireCallback.call] using h

theorem sync_run (call : CompareSem) (script : List (Command × Env)) (s : Run) (P : List Nat)
    (h : ∀ x, x ∈ pendingAfter P s.trace ↔ x ∈ keys s.map) :
    ∀ x, x ∈ pendingAfter P (run call s script).trace ↔ x ∈ keys (run call s script).map := by
  induction script generalizing s with
  | nil => exact h
  | cons c rest ih => exact ih (step call s c) (sync_step call s c P h)

theorem pending_nodup (P : List Nat) (t : List Effect) (hP : P.Nodup) (hos : OsOk P t) :
    (pendingAfter P t).Nodup := by
  induction t generalizing P with
  | nil => exact hP
  | cons e rest ih =>
    cases e with
    | setTimer el ret =>
      obtain ⟨-, hfresh, hrest⟩ := hos
      exact ih (ret :: P) (List.nodup_cons.mpr ⟨hfresh, hP⟩) hrest
    | killTimer id => exact ih _ (hP.filter _) hos
    | deleteCallback cb => exact ih P hP hos
    | deleteObject q => exact ih P hP hos
    | invoke ow fn arg => exact ih P hP hos

theorem pending_nonzero (P : List Nat) (t : List Effect) (hP : 0 ∉ P) (hos : OsOk P t) :
    0 ∉ pendingAfter P t := by
  induction t generalizing P with
  | nil => exact hP
  | cons e rest ih =>
    cases e with
    | setTimer el ret =>
      obtain ⟨hne, -, hrest⟩ := hos
      refine ih (ret :: P) ?_ hrest
      intro h0
      rcases List.mem_cons.mp h0 with h | h
      · exact hne h.symm
      · exact hP h
    | killTimer id => exact ih _ (fun h0 => hP (List.mem_filter.mp h0).1) hos
    | deleteCallback cb => exact ih P hP hos
    | deleteObject q => exact ih P hP hos
    | invoke ow fn arg => exact ih P hP hos

/-- C19: starting from the empty registry with nothing scheduled, after any sequence of
`AddTimer`, `ResetTimer`, `RemoveTimer(UINT_PTR)`, `RemoveTimer(void*)` and
`TimerProc` calls along which every `SetTimer` returned a non-zero id that was
not scheduled at that moment, an id is scheduled with the OS and not cancelled
exactly when it is a key of the map; each such id is scheduled once and none is
the invalid id 0. -/
theorem C19_scheduled_ids_are_keys (call : CompareSem) (script : List (Command × Env))
    (hos : OsOk [] (run call Run.init script).trace) :
    (∀ x, x ∈ pendingAfter [] (run call Run.init script).trace
      ↔ x ∈ keys (run call Run.init script).map) ∧
    (pendingAfter [] (run call Run.init script).trace).Nodup ∧
    0 ∉ keys (run call Run.init script).map := by
  have hsync := sync_run call script Run.init []
    (by intro x; simp [Run.init, pendingAfter, keys])
  refine ⟨hsync, pending_nodup [] _ List.nodup_nil hos, ?_⟩
  intro h0
  exact pending_nonzero [] _ (by simp) hos ((hsync 0).mpr h0)

/-- Witness for C19: after the mixed run only id 9 is scheduled and only key 9 is in
the map. -/
theorem C19_scheduled_ids_are_keys_witness :
    OsOk [] (run demoCall Run.init demoMixed).trace ∧
    pendingAfter [] (run demoCall Run.init demoMixed).trace = [9] ∧
    keys (run demoCall Run.init demoMixed).map = [9] ∧
    ((∀ x, x ∈ pendingAfter [] (run demoCall Run.init demoMixed).trace
      ↔ x ∈ keys (run demoCall Run.init demoMixed).map) ∧
    (pendingAfter [] (run demoCall Run.init demoMixed).trace).Nodup ∧
    0 ∉ keys (run demoCall Run.init demoMixed).map) :=
  ⟨by decide, by decide, by decide,
   C19_scheduled_ids_are_keys demoCall demoMixed (by decide)⟩

/-! ## A record under key 0 -/

theorem head_of_find_zero (m : TimerMap) (cb0 : CTimerExpireCallback) (ho : Ordered m)
    (hf : find 0 m = some cb0) : ∃ rest, m = (0, cb0) :: rest := by
  cases m with
  | nil => simp [find] at hf
  | cons e rest =>
    obtain ⟨a, c⟩ := e
    by_cases ha : a = 0
    · subst ha
      simp only [find, if_true, Option.some.injEq] at hf
      exact ⟨rest, by rw [hf]⟩
    · simp only [find, ha, if_false] at hf
      have hin : 0 ∈ keys rest := by
        by_contra hnot
        rw [(find_eq_none_iff 0 rest).mpr hnot] at hf
        cases hf
      have hlt : a < 0 := by
        unfold Ordered keys at ho
        exact (List.pairwise_cons.mp ho).1 0 hin
      exact absurd hlt (Nat.not_lt_zero a)

/-- C20: when `SetTimer` returns 0, a creating `AddTimer` stores the new record under key
0 and returns 0. A record stored under key 0 is still stored there, unchanged,
after any `ResetTimer` in which the OS returns a non-zero id and after any
`RemoveTimer(UINT_PTR)`, `RemoveTimer(void*)` and `TimerProc`; in an ordered map
a `RemoveTimer(void*)` whose user object it accepts does nothing at all;
`TimerProc(0)` calls nothing, every handler call `TimerProc` makes passes the
record found under a non-zero id, and when records carry their keys as ids no
call ever passes the record under key 0. -/
theorem C20_record_under_key_zero (call : CompareSem) :
    (∀ (env : Env) (o t : Nat) (cmp : Option Nat) (p ms : Nat) (m : TimerMap),
      env.setTimerResult = 0 → (∀ e ∈ m, ¬ Accepts call p e.2) →
      (AddTimer call env o t cmp p ms m).ret = 0 ∧
      find 0 (AddTimer call env o t cmp p ms m).map = some (mkCallback o t cmp p ms 0)) ∧
    (∀ (m : TimerMap) (cb0 : CTimerExpireCallback), find 0 m = some cb0 →
      (∀ (env : Env) (id : Nat), env.setTimerResult ≠ 0 →
        find 0 (ResetTimer env id m).1 = some cb0) ∧
      (∀ id, find 0 (RemoveTimer id m).1 = some cb0) ∧
      (∀ p, find 0 (RemoveTimerByObject call p m).1 = some cb0) ∧
      (∀ p, Ordered m → Accepts call p cb0 → RemoveTimerByObject call p m = (m, [])) ∧
      (∀ id, (TimerProc id m).1 = m) ∧
      TimerProc 0 m = (m, []) ∧
      (∀ id ow fn arg, Effect.invoke ow fn arg ∈ (TimerProc id m).2 →
        id ≠ 0 ∧ find id m = some arg) ∧
      (KeyedById m → ∀ id ow fn, Effect.invoke ow fn cb0 ∉ (TimerProc id m).2)) := by
  have hremove : ∀ (m : TimerMap) (cb0 : CTimerExpireCallback), find 0 m = some cb0 →
      ∀ id, find 0 (RemoveTimer id m).1 = some cb0 := by
    intro m cb0 hf id
    unfold RemoveTimer
    by_cases h0 : id = 0
    · simpa [h0] using hf
    · cases hfi : find id m with
      | none => simpa [h0] using hf
      | some cb =>
        simp only [h0, if_false]
        rw [find_erase]
        have : ¬ 0 = id := fun e => h0 e.symm
        simpa [this] using hf
  have hinvoke : ∀ (m : TimerMap) (id ow fn : Nat) (arg : CTimerExpireCallback),
      Effect.invoke ow fn arg ∈ (TimerProc id m).2 → id ≠ 0 ∧ find id m = some arg := by
    intro m id ow fn arg hin
    unfold TimerProc at hin
    by_cases h0 : id = 0
    · simp [h0] at hin
    · cases hfi : find id m with
      | none => simp [h0, hfi] at hin
      | some cb =>
        simp only [h0, if_false, hfi, List.mem_singleton, CTimerExpireCallback.call,
          Effect.invoke.injEq] at hin
        exact ⟨h0, by rw [hin.2.2]⟩
  constructor
  · intro env o t cmp p ms m henv hno
    have hfm : firstMatch call p m = none := (firstMatch_none_iff call p m).mpr hno
    unfold AddTimer
    rw [hfm]
    simp [henv, find_assign, mkCallback]
  · intro m cb0 hf
    refine ⟨?_, hremove m cb0 hf, ?_, ?_, ?_, ?_, hinvoke m, ?_⟩
    · intro env id henv
      unfold ResetTimer
      by_cases h0 : id = 0
      · simpa [h0] using hf
      · cases hfi : find id m with
        | none => simpa [h0] using hf
        | some cb =>
          simp only [h0, if_false]
          rw [find_assign, find_erase]
          have h1 : ¬ 0 = env.setTimerResult := fun e => henv e.symm
          have h2 : ¬ 0 = id := fun e => h0 e.symm
          simpa [h1, h2] using hf
    · intro p
      have hk : ∀ k : Nat,
          find 0 (if k ≠ 0 then RemoveTimer k m else (m, [])).1 = some cb0 := by
        intro k
        by_cases hk0 : k = 0
        · simpa [hk0] using hf
        · simpa [hk0] using hremove m cb0 hf k
      exact hk _
    · intro p ho hacc
      obtain ⟨rest, hm⟩ := head_of_find_zero m cb0 ho hf
      have hfm : firstMatch call p m = some (0, cb0) := by
        rw [hm]
        unfold firstMatch
        unfold Accepts at hacc
        simp [hacc]
      simp [RemoveTimerByObject, hfm]
    · intro id
      unfold TimerProc
      by_cases h0 : id = 0
      · simp [h0]
      · cases hfi : find id m <;> simp [h0]
    · simp [TimerProc]
    · intro hkeyed id ow fn hin
      obtain ⟨h0, hfi⟩ := hinvoke m id ow fn cb0 hin
      have h1 := hkeyed (0, cb0) (mem_of_find 0 cb0 m hf)
      have h2 := hkeyed (id, cb0) (mem_of_find id cb0 m hfi)
      simp only at h1 h2
      exact h0 (h2.symm.trans h1)

/-- Witness for C20: an add on the empty registry while the OS answers 0 stores under
key 0 and returns 0; in a registry whose record under key 0 accepts every user
object, a reset of id 7 (OS answers 8), both removals and a dispatch leave that
record where it is. -/
theorem C20_record_under_key_zero_witness :
    (AddTimer demoCall ⟨0, 0⟩ 1 2 (some 1) 10 1000 []).ret = 0 ∧
    (AddTimer demoCall ⟨0, 0⟩ 1 2 (some 1) 10 1000 []).map
      = [(0, mkCallback 1 2 (some 1) 10 1000 0)] ∧
    find 0 demoKeyZero = some (mkCallback 1 2 (some 1) 10 1000 0) ∧
    find 0 (ResetTimer ⟨8, 500⟩ 7 demoKeyZero).1 = some (mkCallback 1 2 (some 1) 10 1000 0) ∧
    find 0 (RemoveTimer 7 demoKeyZero).1 = some (mkCallback 1 2 (some 1) 10 1000 0) ∧
    (Ordered demoKeyZero ∧ Accepts demoCall 10 (mkCallback 1 2 (some 1) 10 1000 0)) ∧
    RemoveTimerByObject demoCall 10 demoKeyZero = (demoKeyZero, []) ∧
    TimerProc 0 demoKeyZero = (demoKeyZero, []) :=
  ⟨((C20_record_under_key_zero demoCall).1 ⟨0, 0⟩ 1 2 (some 1) 10 1000 [] rfl
      (by decide)).1,
   by decide, by decide,
   ((C20_record_under_key_zero demoCall).2 demoKeyZero (mkCallback 1 2 (some 1) 10 1000 0)
      (by decide)).1 ⟨8, 500⟩ 7 (by decide),
   ((C20_record_under_key_zero demoCall).2 demoKeyZero (mkCallback 1 2 (some 1) 10 1000 0)
      (by decide)).2.1 7,
   by decide,
   ((C20_record_under_key_zero demoCall).2 demoKeyZero (mkCallback 1 2 (some 1) 10 1000 0)
      (by decide)).2.2.2.1 10 (by decide) (by decide),
   ((C20_record_under_key_zero demoCall).2 demoKeyZero (mkCallback 1 2 (some 1) 10 1000 0)
      (by decide)).2.2.2.2.2.1⟩

end CTemplateTimer
